import Mathlib

/-!
Verification development for the PitBull spread-trading engine.

The Python sources are shallowly embedded as Lean functions:
* float arithmetic is modelled over `ℚ`;
* `dict`/`redis` state becomes explicit maps from a structured key type;
* every network call is resolved through an explicit environment value, and
  the side effects of a code path are recorded as an ordered event trace;
* Python truthiness checks (`if not x`, `if x and …`) are modelled by
  `Option` matches together with explicit zero/emptiness tests.

Sources embedded: `order_process.py`, `position_monitor.py`,
`rate_limiter.py`, `local_signal_generator.py`.
-/

namespace PitBull

/-! ## Numeric helpers (order_process.py, position_monitor.py)

Python's built-in `round(x, n)` rounds half to even (banker's rounding).
`roundHalfEven` is its integer core; `pyRound x n` is `round(x, n)`. -/

/-- Round a rational to the nearest integer, ties to even
(the semantics of Python's built-in `round` on an exact value). -/
def roundHalfEven (x : ℚ) : ℤ :=
  if x - ⌊x⌋ < 1/2 then ⌊x⌋
  else if 1/2 < x - ⌊x⌋ then ⌊x⌋ + 1
  else if ⌊x⌋ % 2 = 0 then ⌊x⌋ else ⌊x⌋ + 1

/-- Python `round(x, ndigits)` on an exact rational value. -/
def pyRound (x : ℚ) (ndigits : ℕ) : ℚ :=
  (roundHalfEven (x * 10 ^ ndigits) : ℚ) / 10 ^ ndigits

/-- Embedding of `adjust_price_to_tick_size` (order_process.py:14-21):
`tick_size = 10 ** (-price_scale)`; the price is floored to a multiple of the
tick and then passed through `round(_, price_scale)` (which on floats merely
cleans representation error; on exact rationals it is the identity, proved
below).  The `price_scale is None` early return is handled at call sites,
where the callers either check for `None` or supply a default. -/
def adjust_price_to_tick_size (price : ℚ) (price_scale : ℕ) : ℚ :=
  let tick_size : ℚ := 1 / 10 ^ price_scale
  let adjusted_price : ℚ := (⌊price / tick_size⌋ : ℚ) * tick_size
  pyRound adjusted_price price_scale

/-! ## Token configuration and order payloads (order_process.py) -/

/-- One entry of the `tokens_info` map, with the fields the order-processing
and monitoring code reads.  Optional fields model keys that may be absent
(or `None`) in the JSON-backed dict. -/
structure Token where
  mexc_symbol : String
  max_margin : Option ℚ
  contractSize : Option ℚ
  priceScale : Option ℕ
  volScale : Option ℕ
  maxLeverage : Option ℤ
  is_ignored : Bool
  order_in_process : Bool
  deriving Repr, DecidableEq

/-- The dict returned by `prepare_payload` (order_process.py:81-89).
`price` is `none` once `start_process` switches the payload to a market
order and pops the key. -/
structure OrderPayload where
  symbol : String
  side : ℕ
  leverage : ℤ
  vol : ℚ
  openType : ℕ
  type : ℕ
  price : Option ℚ
  deriving Repr, DecidableEq

/-- The order candidate dict built by the signal source and consumed by
`start_process`/`handle_order` (the fields those functions read). -/
structure Order where
  mexc_symbol : String
  limit_price : Option ℚ
  percent : ℚ
  deriving Repr, DecidableEq

/-- Embedding of `prepare_payload` (order_process.py:44-89).

* `if not limit_price or limit_price <= 0` rejects a missing price and any
  price `≤ 0` (`not 0.0` is truthy, subsumed by the `≤ 0` test);
* the effective margin is `min(max_margin, token['max_margin'])` when the
  token carries a positive numeric cap, else `max_margin`;
* `contract_size = token.get('contractSize', 1.0) or 1.0` maps a missing or
  zero contract size to `1`;
* missing `priceScale`/`volScale` abort with `None`;
* `raw_vol = (margin * int(leverage)) / limit_price / contract_size`,
  floored down to the volume step `10 ** (-vol_scale)`; the `int(...)` cast
  for `vol_scale == 0` is the identity on the floored value (step `1`) and
  is not separately modelled;
* a floored volume below one step rejects the order;
* `final_price = round(limit_price, price_scale)` (Python `round`). -/
def prepare_payload (limit_price : Option ℚ) (side : ℕ) (leverage : ℤ)
    (max_margin : ℚ) (token : Token) : Option OrderPayload :=
  match limit_price with
  | none => none
  | some lp =>
    if lp ≤ 0 then none
    else
      let margin : ℚ :=
        match token.max_margin with
        | some token_margin =>
            if 0 < token_margin then min max_margin token_margin else max_margin
        | none => max_margin
      let contract_size : ℚ :=
        match token.contractSize with
        | some cs => if cs = 0 then 1 else cs
        | none => 1
      match token.priceScale, token.volScale with
      | some price_scale, some vol_scale =>
        let raw_vol : ℚ := margin * leverage / lp / contract_size
        let step : ℚ := 1 / 10 ^ vol_scale
        let final_volume : ℚ := (⌊raw_vol / step⌋ : ℚ) * step
        if final_volume < step then none
        else
          let final_price : ℚ := pyRound lp price_scale
          some { symbol := token.mexc_symbol, side := side, leverage := leverage,
                 vol := final_volume, openType := 1, type := 1,
                 price := some final_price }
      | _, _ => none

/-! ## State-store keys and settings

`redis` keys used by the engine, as a structured key type: one constructor
per key family (`"cooldown:{symbol}"`, `"peak_price:{pos_id}"`, …).  All
stored values are modelled as rationals. -/

/-- The redis key families written/read by `order_process.py` and
`position_monitor.py`. -/
inductive RKey
  | cooldown (symbol : String)
  | initial_spread (pos_id : ℕ)
  | peak_price (pos_id : ℕ)
  | initial_vol (pos_id : ℕ)
  | scaling_target_hit (pos_id : ℕ) (i : ℕ)
  | pyramiding_entries (pos_id : ℕ)
  | pyramiding_lock (pos_id : ℕ) (entries : ℤ)
  deriving DecidableEq, Repr

/-- The key/value store (redis), without TTL bookkeeping: a key with a
time-to-live is simply present until it expires or is deleted. -/
def Store : Type := RKey → Option ℚ

def Store.set (s : Store) (k : RKey) (v : ℚ) : Store :=
  fun k2 => if k2 = k then some v else s k2

def Store.del (s : Store) (k : RKey) : Store :=
  fun k2 => if k2 = k then none else s k2

/-- `PYRAMIDING_CONFIG` sub-dict with the per-site `.get` defaults
(position_monitor.py:153-168). -/
structure PyramidingConfig where
  pnl_threshold_percent : ℚ := 999
  max_entries : ℤ := 0
  add_margin_amount : ℚ := 5
  deriving Repr, DecidableEq

/-- One entry of `SCALING_OUT_TARGETS` (position_monitor.py:179-199). -/
structure ScalingTarget where
  pnl_percent : ℚ
  close_fraction : ℚ
  deriving Repr, DecidableEq

/-- The `settings.json` dict, restricted to the keys the embedded code
reads; field defaults are the per-site `.get` defaults. -/
structure Settings where
  MEXC_AUTH_TOKEN : Option String := none
  max_margin : Option ℚ := none
  leverage : ℤ := 20
  IS_HEDGE_MODE : Bool := true
  ENTRY_ORDER_TYPE : String := "limit"
  USE_COOLDOWN : Bool := true
  COOLDOWN_SECONDS : ℕ := 300
  EXCHANGE_STOP_LOSS_PERCENT : Option ℚ := none
  EXCHANGE_TAKE_PROFIT_PERCENT : Option ℚ := none
  USE_PYRAMIDING : Bool := false
  PYRAMIDING_CONFIG : PyramidingConfig := {}
  USE_SCALING_OUT : Bool := false
  SCALING_OUT_TARGETS : List ScalingTarget := []
  LOSS_COOLDOWN_SECONDS : ℕ := 900
  USE_TRAILING_STOP : Bool := false
  TRAILING_ACTIVATION_PERCENT : ℚ := 1/2
  TRAILING_PERCENT : ℚ := 1/5
  MAX_POSITION_HOURS : Option ℚ := none
  TIMEOUT_COOLDOWN_SECONDS : ℕ := 600

/-! ## Exchange calls and event traces

Side effects of a code path are recorded as an ordered event list.
Read-only exchange queries (position/ticker/order-status polling) carry no
state and are elided from the trace; every state-changing exchange call and
every redis write appears. -/

/-- A reduce-only trigger ("plan") order payload
(order_process.py:287-296 and 306-315). -/
structure PlanPayload where
  symbol : String
  vol : ℚ
  side : ℕ
  triggerPrice : ℚ
  triggerType : ℕ
  orderType : ℕ
  positionId : ℕ
  reduceOnly : Bool
  deriving Repr, DecidableEq

/-- A market close payload built by `close_position`
(position_monitor.py:60). -/
structure ClosePayload where
  symbol : String
  vol : ℚ
  side : ℕ
  type : ℕ
  positionId : ℕ
  deriving Repr, DecidableEq

/-- State-changing exchange calls issued by the engine.
`change_leverage none` is the one-way call (no `position_type`). -/
inductive ExCall
  | change_leverage (position_type : Option ℕ)
  | cancel_all_orders
  | cancel_all_plan_orders
  | create_order (payload : OrderPayload)
  | create_plan_order (payload : PlanPayload)
  | close_position_market (payload : ClosePayload)
  deriving DecidableEq, Repr

/-- One observable event of a code path, in program order. -/
inductive Ev
  | setFlag (b : Bool)
  | call (c : ExCall)
  | redisSet (k : RKey) (v : ℚ) (ttl : Option ℕ)
  | redisDel (k : RKey)
  | redisIncr (k : RKey)
  deriving DecidableEq, Repr

/-! ## Leverage-change protocol (order_process.py:126-168)

Exchange responses are drawn from an explicit list, consumed in call order
(`none` models a `None`/exception result). -/

/-- A `change_leverage` response: `success`, `code`, and
`data.leverage`. -/
structure LevResp where
  success : Bool
  code : ℤ
  data_leverage : Option ℤ := none
  deriving Repr, DecidableEq

/-- `ok = lambda r: bool(r and r.get('success'))` (order_process.py:132). -/
def okR : Option LevResp → Bool
  | none => false
  | some r => r.success

/-- `is_2019 = lambda r: bool(r and r.get('code') == 2019)`. -/
def is_2019 : Option LevResp → Bool
  | none => false
  | some r => r.code == 2019

/-- `is_600 = lambda r: bool(r and r.get('code') == 600)`. -/
def is_600 : Option LevResp → Bool
  | none => false
  | some r => r.code == 600

/-- Pop the next queued exchange response (an exhausted queue yields
`none`, i.e. a failed call). -/
def takeResp : List (Option LevResp) → Option LevResp × List (Option LevResp)
  | [] => (none, [])
  | r :: rest => (r, rest)

/-- Outcome of the hedge-mode leverage dance: the `leverage_res` value on
success, or the abort exits of order_process.py:158-165 (both of which set
a 60 s cooldown and return). -/
inductive LevOutcome
  | levOk (res : Option LevResp)
  | abort
  deriving Repr, DecidableEq

/-- Embedding of the hedge-mode leverage-change block
(order_process.py:128-165): try both sides; on a 2019 (`open orders
exist`) cancel everything and retry each failed side once; if both sides
then show 600 (`wrong position mode`) fall back to exactly one one-way
`change_leverage` call; anything else aborts.  Returns the outcome and the
exchange calls made, in order. -/
def set_leverage_hedge (resps : List (Option LevResp)) :
    LevOutcome × List ExCall :=
  let (long_res, r1) := takeResp resps
  let (short_res, r2) := takeResp r1
  let calls0 : List ExCall :=
    [ExCall.change_leverage (some 1), ExCall.change_leverage (some 2)]
  if okR long_res && okR short_res then (LevOutcome.levOk long_res, calls0)
  else
    let retry := is_2019 long_res || is_2019 short_res
    let (long_res2, r3, callsL) :=
      if retry && !okR long_res then
        let (lr, r) := takeResp r2
        (lr, r, [ExCall.change_leverage (some 1)])
      else (long_res, r2, [])
    let (short_res2, r4, callsS) :=
      if retry && !okR short_res then
        let (sr, r) := takeResp r3
        (sr, r, [ExCall.change_leverage (some 2)])
      else (short_res, r3, [])
    let calls1 := calls0
      ++ (if retry then [ExCall.cancel_all_orders, ExCall.cancel_all_plan_orders] else [])
      ++ callsL ++ callsS
    if okR long_res2 && okR short_res2 then (LevOutcome.levOk long_res2, calls1)
    else if is_600 long_res2 && is_600 short_res2 then
      let (oneway_res, _) := takeResp r4
      let calls2 := calls1 ++ [ExCall.change_leverage none]
      if okR oneway_res then (LevOutcome.levOk oneway_res, calls2)
      else (LevOutcome.abort, calls2)
    else (LevOutcome.abort, calls1)

/-! ## Order lifecycle (order_process.py:110-326) -/

/-- A `create_order` response: `success`, `code`, `data.orderId`
(missing ids collapse to the empty string at order_process.py:242). -/
structure CreateResp where
  success : Bool
  code : ℤ
  orderId : Option String := none
  deriving Repr, DecidableEq

/-- Python truthiness of an optional numeric id (`0`/missing are falsy). -/
def truthyNat : Option ℕ → Bool
  | none => false
  | some n => n != 0

/-- Python truthiness of an optional numeric setting (`0`/missing falsy). -/
def truthyQ : Option ℚ → Bool
  | none => false
  | some q => q != 0

/-- Environment resolving every network interaction of one `handle_order`
run: the queued `change_leverage` responses, the main-order creation
response, and the position id delivered by each of the two fill-confirmation
strategies (`wait_fill_and_position_id` / `fetch_position_id_for_symbol`),
`none` meaning that strategy timed out. -/
structure OrderEnv where
  lev_resps : List (Option LevResp) := []
  create_res : Option CreateResp := none
  fill_pos_id : Option ℕ := none
  fallback_pos_id : Option ℕ := none

/-- Embedding of `finalize_order_and_setup_sl_tp` (order_process.py:214-326).

* a failed/absent main-order result sets a 60 s cooldown and returns `None`;
* with an order id, fill confirmation polls order-status
  (`wait_fill_and_position_id`, elided read-only polling), else/on timeout it
  falls back to polling open positions (`fetch_position_id_for_symbol`);
* with a truthy position id, a nonzero volume, and a truthy SL or TP
  percent, it submits reduce-only plan orders whose trigger prices mirror
  order_process.py:279-316: tick-floored for the long side, plain
  `round(..., price_scale)` for the short side. -/
def finalize_order_and_setup_sl_tp (env : OrderEnv)
    (main_order_res : Option CreateResp) (symbol : String) (side : ℕ)
    (limit_price : ℚ) (payload : OrderPayload) (token : Token)
    (st : Settings) : Option ℕ × List Ev :=
  let main_ok := match main_order_res with
    | some r => r.success && r.code == 0
    | none => false
  if !main_ok then
    (none, [Ev.redisSet (RKey.cooldown symbol) 1 (some 60)])
  else
    let order_id : String :=
      match main_order_res with
      | some r => match r.orderId with | some s => s | none => ""
      | none => ""
    let pos_id0 : Option ℕ := if order_id != "" then env.fill_pos_id else none
    let pos_id : Option ℕ :=
      if truthyNat pos_id0 then pos_id0 else env.fallback_pos_id
    let vol := payload.vol
    let sl_pct := st.EXCHANGE_STOP_LOSS_PERCENT
    let tp_pct := st.EXCHANGE_TAKE_PROFIT_PERCENT
    if truthyNat pos_id && vol != 0 && (truthyQ sl_pct || truthyQ tp_pct) then
      let price_scale := token.priceScale.getD 8
      let close_side := if side = 1 then 4 else 2
      let pid := pos_id.getD 0
      let tpEvents :=
        if truthyQ tp_pct then
          let tp := tp_pct.getD 0
          let tp_price :=
            if side = 1 then
              adjust_price_to_tick_size (limit_price * (1 + tp / 100)) price_scale
            else pyRound (limit_price * (1 - tp / 100)) price_scale
          [Ev.call (ExCall.create_plan_order
            { symbol := symbol, vol := vol, side := close_side,
              triggerPrice := tp_price,
              triggerType := if side = 1 then 1 else 2,
              orderType := 2, positionId := pid, reduceOnly := true })]
        else []
      let slEvents :=
        if truthyQ sl_pct then
          let sl := sl_pct.getD 0
          let sl_price :=
            if side = 1 then
              adjust_price_to_tick_size (limit_price * (1 - sl / 100)) price_scale
            else pyRound (limit_price * (1 + sl / 100)) price_scale
          [Ev.call (ExCall.create_plan_order
            { symbol := symbol, vol := vol, side := close_side,
              triggerPrice := sl_price,
              triggerType := if side = 1 then 2 else 1,
              orderType := 2, positionId := pid, reduceOnly := true })]
        else []
      (pos_id, tpEvents ++ slEvents)
    else (pos_id, [])

/-- The `try` block of `handle_order` (order_process.py:114-206), returning
the resolved position id and the event trace of the block.

* missing `MEXC_AUTH_TOKEN`/`max_margin`/`leverage` abort with no effects;
* hedge mode runs `set_leverage_hedge`; its abort exits write the 60 s
  cooldown and return; one-way mode skips the dance
  (`leverage_res` stays `None` and defaults to the planned leverage);
* `side` comes from the candidate's spread sign; the payload is built by
  `prepare_payload` and switched to a market order
  (`type = 5`, no price) when `ENTRY_ORDER_TYPE == 'market'`;
* `handle_order_create` submits the payload and passes its result (or
  `None` on failure) to `finalize_order_and_setup_sl_tp`;
* a truthy position id records the candidate's spread as the initial
  spread; `USE_COOLDOWN` then writes the success cooldown regardless of the
  fill outcome. -/
def handle_order_try (env : OrderEnv) (token : Token) (order : Order)
    (st : Settings) : Option ℕ × List Ev :=
  let symbol := token.mexc_symbol
  let missing : Bool :=
    (match st.MEXC_AUTH_TOKEN with | none => true | some a => a == "") ||
    (match st.max_margin with | none => true | some m => m == 0) ||
    (st.leverage == 0)
  if missing then (none, [])
  else
    let max_margin := st.max_margin.getD 0
    let target_leverage := st.leverage
    let actual_leverage_to_set :=
      min target_leverage (token.maxLeverage.getD target_leverage)
    let lres :=
      if st.IS_HEDGE_MODE then set_leverage_hedge env.lev_resps
      else (LevOutcome.levOk none, [])
    let levCalls := lres.2
    match lres.1 with
    | LevOutcome.abort =>
        (none, (levCalls.map Ev.call)
          ++ [Ev.redisSet (RKey.cooldown symbol) 1 (some 60)])
    | LevOutcome.levOk res =>
      let final_leverage := match res with
        | some r => r.data_leverage.getD actual_leverage_to_set
        | none => actual_leverage_to_set
      let side := if 0 < order.percent then 1 else 3
      match prepare_payload order.limit_price side final_leverage max_margin token with
      | none => (none, levCalls.map Ev.call)
      | some payload0 =>
        let payload :=
          if st.ENTRY_ORDER_TYPE = "market" then
            { payload0 with type := 5, price := none }
          else payload0
        let main_ok := match env.create_res with
          | some r => r.success && r.code == 0
          | none => false
        let main_order_res := if main_ok then env.create_res else none
        let fin :=
          finalize_order_and_setup_sl_tp env main_order_res symbol side
            (order.limit_price.getD 0) payload token st
        let pos_id := fin.1
        let spreadEvents :=
          if truthyNat pos_id then
            [Ev.redisSet (RKey.initial_spread (pos_id.getD 0)) order.percent none]
          else []
        let cooldownEvents :=
          if st.USE_COOLDOWN then
            [Ev.redisSet (RKey.cooldown symbol) 1 (some st.COOLDOWN_SECONDS)]
          else []
        (pos_id, (levCalls.map Ev.call) ++ [Ev.call (ExCall.create_order payload)]
          ++ fin.2 ++ spreadEvents ++ cooldownEvents)

/-- Embedding of `handle_order` (order_process.py:110-211): the in-process
flag is assigned `True` as the first statement, the `try` body runs (any
exception inside it is swallowed by the `except` clause), and the `finally`
clause assigns the flag `False` on every exit path. -/
def handle_order (env : OrderEnv) (token : Token) (order : Order)
    (st : Settings) : Token × Option ℕ × List Ev :=
  let res := handle_order_try env token order st
  ({ token with order_in_process := false }, res.1,
    Ev.setFlag true :: res.2 ++ [Ev.setFlag false])

/-- How one dequeued candidate was settled by `start_process`. -/
inductive StepAction
  | dropped_unknown
  | dropped_cooldown
  | dropped_ignored
  | dropped_in_process
  | processed (pos_id : Option ℕ)
  deriving Repr, DecidableEq

/-- Embedding of one iteration of the `start_process` loop
(order_process.py:334-365) on a dequeued candidate.

Ordered checks: unknown/empty symbol; active cooldown (when
`USE_COOLDOWN`); ignored token; `order_in_process` already set.  Each
failed check `continue`s — and the loop's `finally` clause then assigns
`token['order_in_process'] = False` whenever the symbol resolved to a
token, including on the skip paths.  Otherwise `handle_order` runs and the
same `finally` clears the flag once more.  Returns the action taken, the
updated token map, and the events of the iteration. -/
def start_process_step (env : OrderEnv) (tokens_info : String → Option Token)
    (store : Store) (st : Settings) (order : Order) :
    StepAction × (String → Option Token) × List Ev :=
  let sym := order.mexc_symbol
  if sym = "" then (StepAction.dropped_unknown, tokens_info, [])
  else
    match tokens_info sym with
    | none => (StepAction.dropped_unknown, tokens_info, [])
    | some token =>
      let cleared := Function.update tokens_info sym
        (some { token with order_in_process := false })
      if st.USE_COOLDOWN && (store (RKey.cooldown sym)).isSome then
        (StepAction.dropped_cooldown, cleared, [Ev.setFlag false])
      else if token.is_ignored then
        (StepAction.dropped_ignored, cleared, [Ev.setFlag false])
      else if token.order_in_process then
        (StepAction.dropped_in_process, cleared, [Ev.setFlag false])
      else
        let hres := handle_order env token order st
        (StepAction.processed hres.2.1,
          Function.update tokens_info sym
            (some { hres.1 with order_in_process := false }),
          hres.2.2 ++ [Ev.setFlag false])

/-! ## Position monitor (position_monitor.py) -/

/-- An exchange-reported open position, with the fields checked as required
at position_monitor.py:119. -/
structure Position where
  symbol : String
  openAvgPrice : ℚ
  positionType : ℕ
  positionId : ℕ
  createTime : ℚ
  leverage : ℚ
  holdVol : ℚ
  deriving Repr, DecidableEq

/-- Python `int(...)` on an exact rational (truncation toward zero). -/
def truncQ (q : ℚ) : ℤ := if q < 0 then -⌊-q⌋ else ⌊q⌋

/-- `incr`: redis increments a counter, missing key counts as `0`. -/
def Store.incr (s : Store) (k : RKey) : Store :=
  s.set k ((s k).getD 0 + 1)

/-- Environment for one monitor evaluation: outcome of each
state-changing exchange call. -/
structure MonitorEnv where
  closeOk : ClosePayload → Bool
  createOk : OrderPayload → Bool

/-- The payload `close_position` would submit
(position_monitor.py:47-60): requested volume (defaulting to the held
volume) clamped to the held volume; `none` when the clamped volume is
`≤ 0`, in which case nothing is submitted. -/
def close_position_payload (pos : Position) (close_vol : Option ℚ) :
    Option ClosePayload :=
  let vol0 := close_vol.getD pos.holdVol
  let vol_to_close := if pos.holdVol < vol0 then pos.holdVol else vol0
  if vol_to_close ≤ 0 then none
  else some { symbol := pos.symbol, vol := vol_to_close,
              side := if pos.positionType = 1 then 4 else 2,
              type := 6, positionId := pos.positionId }

/-- Embedding of `close_position` (position_monitor.py:47-72): returns
whether the close succeeded, plus the calls made. -/
def close_position (env : MonitorEnv) (pos : Position)
    (close_vol : Option ℚ) : Bool × List Ev :=
  match close_position_payload pos close_vol with
  | none => (false, [])
  | some p => (env.closeOk p, [Ev.call (ExCall.close_position_market p)])

/-- Embedding of the Pyramiding strategy (position_monitor.py:152-175):
gated by `USE_PYRAMIDING` and the PnL threshold; the per-attempt lock is a
set-if-absent with expiry keyed by the current entry count; on a confirmed
order the counter is incremented.  (The auth-token loop is modelled for a
single account.) -/
def pyramiding_eval (env : MonitorEnv) (st : Settings) (token : Token)
    (pos : Position) (current_price pnl_pct : ℚ) (store : Store) :
    Store × List Ev :=
  if st.USE_PYRAMIDING then
    let cfg := st.PYRAMIDING_CONFIG
    if cfg.pnl_threshold_percent ≤ pnl_pct then
      let entriesKey := RKey.pyramiding_entries pos.positionId
      let entries_count : ℤ := truncQ ((store entriesKey).getD 0)
      if entries_count < cfg.max_entries then
        let lockKey := RKey.pyramiding_lock pos.positionId entries_count
        if store lockKey = none then
          let store1 := store.set lockKey 1
          let lockEv := Ev.redisSet lockKey 1 (some 300)
          match prepare_payload (some current_price)
              (if pos.positionType = 1 then 1 else 3) (truncQ pos.leverage)
              cfg.add_margin_amount token with
          | none => (store1, [lockEv])
          | some payload =>
            let createEv := Ev.call (ExCall.create_order payload)
            if env.createOk payload then
              (store1.incr entriesKey, [lockEv, createEv, Ev.redisIncr entriesKey])
            else (store1, [lockEv, createEv])
        else (store, [])
      else (store, [])
    else (store, [])
  else (store, [])

/-- The target loop of the Scaling Out strategy
(position_monitor.py:187-199), over the sorted target list with its
enumeration index: the first target whose threshold is reached and whose
hit marker is absent gets one partial close (volume
`round(initial_vol * fraction, vol_scale)`, clamped by `close_position`);
the marker is written only on close success and the loop breaks either
way.  Returns the store, events, and the `target_hit` flag. -/
def scaling_out_loop (env : MonitorEnv) (pos : Position) (vol_scale : ℕ)
    (initial_vol pnl_pct : ℚ) :
    List ScalingTarget → ℕ → Store → Store × List Ev × Bool
  | [], _, store => (store, [], false)
  | target :: rest, i, store =>
    let target_key := RKey.scaling_target_hit pos.positionId i
    if target.pnl_percent ≤ pnl_pct && (store target_key).isNone then
      let vol_to_close := initial_vol * target.close_fraction
      let final_vol_to_close := pyRound vol_to_close vol_scale
      let cres := close_position env pos (some final_vol_to_close)
      if cres.1 then
        (store.set target_key 1,
          cres.2 ++ [Ev.redisSet target_key 1 (some 86400)], true)
      else (store, cres.2, false)
    else scaling_out_loop env pos vol_scale initial_vol pnl_pct rest (i + 1) store

/-- Embedding of the Scaling Out strategy (position_monitor.py:178-201):
on first evaluation the current held volume is snapshotted as the baseline;
targets are evaluated sorted ascending by PnL threshold. -/
def scaling_out_eval (env : MonitorEnv) (st : Settings) (pos : Position)
    (vol_scale : ℕ) (pnl_pct : ℚ) (store : Store) :
    Store × List Ev × Bool :=
  if st.USE_SCALING_OUT then
    let volKey := RKey.initial_vol pos.positionId
    let snap : ℚ × Store × List Ev :=
      match store volKey with
      | none => (pos.holdVol, store.set volKey pos.holdVol,
                 [Ev.redisSet volKey pos.holdVol none])
      | some v => (v, store, [])
    let sorted := List.insertionSort
      (fun a b => a.pnl_percent ≤ b.pnl_percent) st.SCALING_OUT_TARGETS
    let res := scaling_out_loop env pos vol_scale snap.1 pnl_pct sorted 0 snap.2.1
    (res.1, snap.2.2 ++ res.2.1, res.2.2)
  else (store, [], false)

/-- Embedding of the hard Stop-Loss (position_monitor.py:203-216): a truthy
configured percent and `pnl_pct ≤ -|percent|` trigger a full close; on
success the loss cooldown is set and the peak-price, initial-spread and
initial-volume keys are deleted, then the remaining strategies are
skipped. -/
def stop_loss_eval (env : MonitorEnv) (st : Settings) (pos : Position)
    (pnl_pct : ℚ) (store : Store) : Store × List Ev × Bool :=
  match st.EXCHANGE_STOP_LOSS_PERCENT with
  | none => (store, [], false)
  | some slp =>
    if slp ≠ 0 ∧ pnl_pct ≤ -|slp| then
      let cres := close_position env pos none
      if cres.1 then
        let ck := RKey.cooldown pos.symbol
        let store1 := (((store.set ck 1).del (RKey.peak_price pos.positionId)).del
          (RKey.initial_spread pos.positionId)).del (RKey.initial_vol pos.positionId)
        (store1, cres.2 ++
          [Ev.redisSet ck 1 (some st.LOSS_COOLDOWN_SECONDS),
           Ev.redisDel (RKey.peak_price pos.positionId),
           Ev.redisDel (RKey.initial_spread pos.positionId),
           Ev.redisDel (RKey.initial_vol pos.positionId)], true)
      else (store, cres.2, false)
    else (store, [], false)

/-- Embedding of the Trailing Stop (position_monitor.py:218-247): active
once `pnl_pct` crossed the activation threshold; the persisted peak
(initialised from the entry price) is raised to the current price for a
long / lowered for a short; a retracement of `TRAILING_PERCENT` from the
peak closes the position and, on success, deletes the three state keys. -/
def trailing_stop_eval (env : MonitorEnv) (st : Settings) (pos : Position)
    (current_price pnl_pct : ℚ) (store : Store) : Store × List Ev × Bool :=
  if st.USE_TRAILING_STOP && decide (st.TRAILING_ACTIVATION_PERCENT ≤ pnl_pct) then
    let pk := RKey.peak_price pos.positionId
    let trailing_pct := st.TRAILING_PERCENT
    let peak0 := (store pk).getD pos.openAvgPrice
    let upd : ℚ × Store × List Ev :=
      if pos.positionType = 1 then
        if peak0 < current_price then
          (current_price, store.set pk current_price,
           [Ev.redisSet pk current_price none])
        else (peak0, store, [])
      else
        if current_price < peak0 then
          (current_price, store.set pk current_price,
           [Ev.redisSet pk current_price none])
        else (peak0, store, [])
    let trigger_hit :=
      if pos.positionType = 1 then
        current_price ≤ upd.1 * (1 - trailing_pct / 100)
      else
        upd.1 * (1 + trailing_pct / 100) ≤ current_price
    if trigger_hit then
      let cres := close_position env pos none
      if cres.1 then
        let store2 := ((upd.2.1.del pk).del
          (RKey.initial_spread pos.positionId)).del (RKey.initial_vol pos.positionId)
        (store2, upd.2.2 ++ cres.2 ++
          [Ev.redisDel pk,
           Ev.redisDel (RKey.initial_spread pos.positionId),
           Ev.redisDel (RKey.initial_vol pos.positionId)], true)
      else (upd.2.1, upd.2.2 ++ cres.2, false)
    else (upd.2.1, upd.2.2, false)
  else (store, [], false)

/-- Embedding of the position timeout (position_monitor.py:249-264): a
truthy `MAX_POSITION_HOURS` and an age above it close the position; on
success the timeout cooldown is set and the three state keys deleted. -/
def timeout_eval (env : MonitorEnv) (st : Settings) (pos : Position)
    (now_ms : ℚ) (store : Store) : Store × List Ev × Bool :=
  match st.MAX_POSITION_HOURS with
  | none => (store, [], false)
  | some max_pos_hours =>
    if max_pos_hours ≠ 0 ∧
        max_pos_hours < (now_ms - pos.createTime) / 3600000 then
      let cres := close_position env pos none
      if cres.1 then
        let ck := RKey.cooldown pos.symbol
        let store1 := (((store.set ck 1).del (RKey.peak_price pos.positionId)).del
          (RKey.initial_spread pos.positionId)).del (RKey.initial_vol pos.positionId)
        (store1, cres.2 ++
          [Ev.redisSet ck 1 (some st.TIMEOUT_COOLDOWN_SECONDS),
           Ev.redisDel (RKey.peak_price pos.positionId),
           Ev.redisDel (RKey.initial_spread pos.positionId),
           Ev.redisDel (RKey.initial_vol pos.positionId)], true)
      else (store, cres.2, false)
    else (store, [], false)

/-- One monitor-cycle evaluation of a single position
(position_monitor.py:118-264, after the required-field/ticker checks):
PnL computation, then Pyramiding, Scaling Out, Stop-Loss, Trailing Stop and
Timeout in order, each close action short-circuiting the rest
(`continue`). -/
def monitor_position_step (env : MonitorEnv) (st : Settings) (token : Token)
    (pos : Position) (current_price now_ms : ℚ) (store : Store) :
    Store × List Ev :=
  let vol_scale := token.volScale.getD 0
  let entry_price := pos.openAvgPrice
  let base_pnl_pct :=
    if pos.positionType = 1 then (current_price - entry_price) / entry_price * 100
    else (entry_price - current_price) / entry_price * 100
  let pnl_pct := base_pnl_pct * pos.leverage
  let r1 := pyramiding_eval env st token pos current_price pnl_pct store
  let r2 := scaling_out_eval env st pos vol_scale pnl_pct r1.1
  if r2.2.2 then (r2.1, r1.2 ++ r2.2.1)
  else
    let r3 := stop_loss_eval env st pos pnl_pct r2.1
    if r3.2.2 then (r3.1, r1.2 ++ r2.2.1 ++ r3.2.1)
    else
      let r4 := trailing_stop_eval env st pos current_price pnl_pct r3.1
      if r4.2.2 then (r4.1, r1.2 ++ r2.2.1 ++ r3.2.1 ++ r4.2.1)
      else
        let r5 := timeout_eval env st pos now_ms r4.1
        (r5.1, r1.2 ++ r2.2.1 ++ r3.2.1 ++ r4.2.1 ++ r5.2.1)

/-- Several monitor cycles over the same position: each cycle sees its own
environment, current price and clock, and threads the store. -/
def monitor_cycles (st : Settings) (token : Token) (pos : Position) :
    List (MonitorEnv × ℚ × ℚ) → Store → Store
  | [], store => store
  | (env, price, now) :: rest, store =>
      monitor_cycles st token pos rest
        (monitor_position_step env st token pos price now store).1

/-! ## Admission controller (rate_limiter.py)

`APIRateLimiter.acquire` runs under an `asyncio.Lock`, so window
inspections are serialized; `time.monotonic()` is nondecreasing.  One
evaluation of the `while True` body at clock value `now` is `acquireStep`:
evict front timestamps older than one second, then either admit (append
`now`) or refuse (the caller sleeps and re-evaluates later — a later
element of the attempt list). -/

/-- The eviction loop of `acquire` (rate_limiter.py:35-36): pop from the
front while the head timestamp is `≤ now - 1`. -/
def evictOld : List ℚ → ℚ → List ℚ
  | [], _ => []
  | t :: rest, now => if t ≤ now - 1 then evictOld rest now else t :: rest

/-- One evaluation of the `acquire` loop body at clock `now` against
window `w` (rate_limiter.py:30-47): returns the new window and whether the
caller was admitted. -/
def acquireStep (N : ℕ) (w : List ℚ) (now : ℚ) : List ℚ × Bool :=
  let w2 := evictOld w now
  if w2.length < N then (w2 ++ [now], true) else (w2, false)

/-- An execution history of the limiter: fold the loop-body evaluations
over a (time-ordered) list of attempt clock values, collecting the
admitted timestamps. -/
def runLimiter (N : ℕ) : List ℚ → List ℚ → List ℚ × List ℚ
  | w, [] => (w, [])
  | w, now :: rest =>
    let step := acquireStep N w now
    let r := runLimiter N step.1 rest
    (r.1, (if step.2 then [now] else []) ++ r.2)

/-- Membership of a timestamp in the rolling one-second window ending at
`t` — the window the eviction rule `ts ≤ now - 1` realizes is the
half-open interval `(t - 1, t]`. -/
def inWindow (t s : ℚ) : Bool := t - 1 < s && s ≤ t

/-! ## Signal source (local_signal_generator.py) -/

/-- The fields `_process_symbol_update` reads from a `symbol_update`
payload; `none` models a missing key. -/
structure SymbolPayload where
  symbol : Option String := none
  mexc_best_bid : Option ℚ := none
  mexc_best_ask : Option ℚ := none
  dex : Option ℚ := none
  deriving Repr, DecidableEq

/-- `_norm_pair_key` (local_signal_generator.py:13-15): uppercase, append
`_USDT` when no underscore is present. -/
def norm_pair_key (k : String) : String :=
  let ku := k.toUpper
  if ku.contains '_' then ku else ku ++ "_USDT"

/-- `_calc_spread_pct` (local_signal_generator.py:26-33): `None` on a
missing input or a zero mid, else `(dex - mid) / mid * 100`. -/
def calc_spread_pct (mexc_mid : Option ℚ) (dex : Option ℚ) : Option ℚ :=
  match mexc_mid, dex with
  | some m, some d => if m = 0 then none else some ((d - m) / m * 100)
  | _, _ => none

/-- Embedding of `_process_symbol_update`
(local_signal_generator.py:36-86), returning the enqueued order candidate
or `none` when the message is dropped: requires a truthy symbol, bid, ask
and dex price, a computable spread (nonzero mid), and
`min_spread ≤ |spread| ≤ max_spread`. -/
def process_symbol_update (payload : SymbolPayload)
    (min_spread max_spread : ℚ) : Option Order :=
  match payload.symbol with
  | none => none
  | some s =>
    if s = "" then none
    else
      match payload.mexc_best_bid, payload.mexc_best_ask, payload.dex with
      | some best_bid, some best_ask, some dex_price =>
        let mexc_mid_price := (best_bid + best_ask) / 2
        match calc_spread_pct (some mexc_mid_price) (some dex_price) with
        | none => none
        | some spread =>
          if min_spread ≤ |spread| ∧ |spread| ≤ max_spread then
            some { mexc_symbol := norm_pair_key s,
                   limit_price := some mexc_mid_price, percent := spread }
          else none
      | _, _, _ => none

/-! ## Trace observations and concrete fixtures -/

/-- The market-close calls contained in an event trace. -/
def closeCalls (evs : List Ev) : List ClosePayload :=
  evs.filterMap fun e =>
    match e with
    | Ev.call (ExCall.close_position_market p) => some p
    | _ => none

/-- The plan-order (SL/TP) calls contained in an event trace. -/
def planCalls (evs : List Ev) : List PlanPayload :=
  evs.filterMap fun e =>
    match e with
    | Ev.call (ExCall.create_plan_order p) => some p
    | _ => none

/-- Whether an event is an exchange call. -/
def Ev.isCall : Ev → Bool
  | Ev.call _ => true
  | _ => false

/-- Whether an event is a redis key write. -/
def Ev.isRedisSet : Ev → Bool
  | Ev.redisSet _ _ _ => true
  | _ => false

/-- Whether an event is an in-process-flag assignment. -/
def Ev.isFlag : Ev → Bool
  | Ev.setFlag _ => true
  | _ => false

/-- The full-position market-close payload `close_position` submits when
no explicit volume is requested (position_monitor.py:49-60). -/
def full_close_payload (pos : Position) : ClosePayload :=
  { symbol := pos.symbol, vol := pos.holdVol,
    side := if pos.positionType = 1 then 4 else 2, type := 6,
    positionId := pos.positionId }

/-- A token with integer volume lots and integer price scale, no
per-token margin cap. -/
def tokenA : Token :=
  { mexc_symbol := "ABC_USDT", max_margin := none, contractSize := some 1,
    priceScale := some 0, volScale := some 0, maxLeverage := none,
    is_ignored := false, order_in_process := false }

/-- The same token with an order already in process. -/
def tokenB : Token := { tokenA with order_in_process := true }

/-- An exchange environment in which every call succeeds. -/
def envOK : MonitorEnv := { closeOk := fun _ => true, createOk := fun _ => true }

/-- A long position: id 7, entry price 100, leverage 1, 10 contracts. -/
def pos5 : Position :=
  { symbol := "ABC_USDT", openAvgPrice := 100, positionType := 1,
    positionId := 7, createTime := 0, leverage := 1, holdVol := 10 }

/-- Monitor settings: 5 % stop loss, other strategies off. -/
def st5 : Settings :=
  { MEXC_AUTH_TOKEN := some "auth", max_margin := some 50,
    EXCHANGE_STOP_LOSS_PERCENT := some 5 }

/-- A store holding leftover scale-out / pyramiding markers for
position 7. -/
def store5 : Store := fun k =>
  if k = RKey.scaling_target_hit 7 0 then some 1
  else if k = RKey.pyramiding_entries 7 then some 2
  else none

/-- The empty store. -/
def store0 : Store := fun _ => none

/-- A store with an active cooldown for `ABC_USDT`. -/
def storeCD : Store := fun k =>
  if k = RKey.cooldown "ABC_USDT" then some 1 else none

/-- An order candidate for `ABC_USDT` with a 2.5 % spread. -/
def orderA : Order :=
  { mexc_symbol := "ABC_USDT", limit_price := some 2, percent := 5/2 }

/-- A token map holding only `tokenB` (order in process). -/
def tokensB : String → Option Token :=
  fun s => if s = "ABC_USDT" then some tokenB else none

/-- A failed `change_leverage` response with code 600 (wrong position
mode). -/
def resp600 (dl : Option ℤ) : LevResp :=
  { success := false, code := 600, data_leverage := dl }

/-- An order-processing environment where both hedge-side leverage calls
fail with code 600 and the one-way fallback also fails. -/
def env600 : OrderEnv :=
  { lev_resps := [some (resp600 none), some (resp600 none),
                  some (resp600 none)] }

/-- Monitor settings with the trailing stop enabled (0.2 % retracement,
0.5 % activation — the defaults). -/
def stTrail : Settings :=
  { MEXC_AUTH_TOKEN := some "auth", max_margin := some 50,
    USE_TRAILING_STOP := true }

/-- A store holding peak price 100 for position 7. -/
def storePeak : Store := fun k =>
  if k = RKey.peak_price 7 then some 100 else none

/-- An order-processing environment where every call fails/times out. -/
def envNone : OrderEnv := {}

/-- A successful `create_order` response carrying an order id. -/
def crespW : CreateResp := { success := true, code := 0, orderId := some "1" }

/-- An environment where the main order succeeds and the fill resolves to
position id 7. -/
def envFill : OrderEnv :=
  { lev_resps := [some { success := true, code := 0 },
                  some { success := true, code := 0 }],
    create_res := some crespW, fill_pos_id := some 7 }

/-- The entry payload for `tokenA` at price 2 with 50 margin and 10×
leverage. -/
def payA : OrderPayload :=
  { symbol := "ABC_USDT", side := 1, leverage := 10, vol := 250,
    openType := 1, type := 1, price := some 2 }

/-- The stop-loss plan order `finalize_order_and_setup_sl_tp` emits for
`payA`/`tokenA`/`st5` at fill price 2 (trigger `2 × 0.95` tick-floored at
scale 0). -/
def planW : PlanPayload :=
  { symbol := "ABC_USDT", vol := 250, side := 4, triggerPrice := 1,
    triggerType := 2, orderType := 2, positionId := 7, reduceOnly := true }

/-! # Theorems -/

/-! ## Arithmetic facts about the rounding helpers -/

theorem roundHalfEven_intCast (k : ℤ) : roundHalfEven (k : ℚ) = k := by
  unfold roundHalfEven
  norm_num

theorem pyRound_den (x : ℚ) (n : ℕ) :
    ∃ k : ℤ, pyRound x n = (k : ℚ) / 10 ^ n :=
  ⟨roundHalfEven (x * 10 ^ n), rfl⟩

theorem adjust_eq_floor_div (p : ℚ) (s : ℕ) :
    adjust_price_to_tick_size p s = (⌊p * 10 ^ s⌋ : ℚ) / 10 ^ s := by
  have h10 : (10 : ℚ) ^ s ≠ 0 := by positivity
  simp only [adjust_price_to_tick_size, pyRound]
  have h1 : p / (1 / 10 ^ s) = p * 10 ^ s := by field_simp
  rw [h1]
  have h2 : (⌊p * 10 ^ s⌋ : ℚ) * (1 / 10 ^ s) * 10 ^ s = (⌊p * 10 ^ s⌋ : ℚ) := by
    field_simp
  rw [h2, roundHalfEven_intCast]

theorem adjust_le (p : ℚ) (s : ℕ) : adjust_price_to_tick_size p s ≤ p := by
  have h10 : (0 : ℚ) < 10 ^ s := by positivity
  rw [adjust_eq_floor_div, div_le_iff₀ h10]
  exact Int.floor_le _

/-! ## C3 — volume normalization in `prepare_payload` -/

/-- C3: for every margin, leverage, positive limit price, nonzero contract
size and volume scale, `prepare_payload` computes the raw volume
`(margin × leverage) / price / contractSize`, floors it to the volume step
`10 ^ (-volScale)` (the greatest multiple of the step not exceeding the raw
volume), rejects the order exactly when that floored volume is below one
step, and on the concrete scenario `margin = 50, leverage = 10, price = 2,
contractSize = 1, volScale = 0` submits volume `250`. -/
theorem prepare_payload_volume (margin lp cs : ℚ) (lev : ℤ) (ps vs : ℕ)
    (sym : String) (mlv : Option ℤ) (ign oip : Bool)
    (hlp : 0 < lp) (hcs : cs ≠ 0) :
    (∀ p, prepare_payload (some lp) 1 lev margin
        { mexc_symbol := sym, max_margin := none, contractSize := some cs,
          priceScale := some ps, volScale := some vs, maxLeverage := mlv,
          is_ignored := ign, order_in_process := oip } = some p →
        p.vol = (⌊(margin * lev / lp / cs) / (1 / 10 ^ vs)⌋ : ℚ) * (1 / 10 ^ vs) ∧
        (∃ k : ℤ, p.vol = (k : ℚ) * (1 / 10 ^ vs)) ∧
        p.vol ≤ margin * lev / lp / cs ∧
        margin * lev / lp / cs - p.vol < 1 / 10 ^ vs ∧
        1 / 10 ^ vs ≤ p.vol) ∧
    (prepare_payload (some lp) 1 lev margin
        { mexc_symbol := sym, max_margin := none, contractSize := some cs,
          priceScale := some ps, volScale := some vs, maxLeverage := mlv,
          is_ignored := ign, order_in_process := oip } = none ↔
      margin * lev / lp / cs < 1 / 10 ^ vs) ∧
    (prepare_payload (some 2) 1 10 50 tokenA).map OrderPayload.vol = some 250 := by
  have hstep : (0 : ℚ) < 1 / 10 ^ vs := by positivity
  set raw : ℚ := margin * lev / lp / cs with hraw
  set step : ℚ := (1 : ℚ) / 10 ^ vs with hstepdef
  have hfv : (⌊raw / step⌋ : ℚ) * step < step ↔ raw < step := by
    constructor
    · intro h
      have h1 : (⌊raw / step⌋ : ℚ) < 1 := by
        have h' : (⌊raw / step⌋ : ℚ) * step < 1 * step := by linarith
        exact (mul_lt_mul_right hstep).mp h'
      have h2 : ⌊raw / step⌋ < 1 := by exact_mod_cast h1
      have h3 : raw / step < 1 := by exact_mod_cast Int.floor_lt.mp h2
      calc raw = raw / step * step := by field_simp
        _ < 1 * step := (mul_lt_mul_right hstep).mpr h3
        _ = step := one_mul step
    · intro h
      have h3 : raw / step < 1 := (div_lt_one hstep).mpr h
      have h2 : ⌊raw / step⌋ < 1 := Int.floor_lt.mpr (by exact_mod_cast h3)
      have h1 : ⌊raw / step⌋ ≤ 0 := by omega
      have h0 : (⌊raw / step⌋ : ℚ) * step ≤ 0 := by
        apply mul_nonpos_of_nonpos_of_nonneg
        · exact_mod_cast h1
        · exact le_of_lt hstep
      linarith
  have hred : prepare_payload (some lp) 1 lev margin
      { mexc_symbol := sym, max_margin := none, contractSize := some cs,
        priceScale := some ps, volScale := some vs, maxLeverage := mlv,
        is_ignored := ign, order_in_process := oip } =
      (if (⌊raw / step⌋ : ℚ) * step < step then none
       else some { symbol := sym, side := 1, leverage := lev,
                   vol := (⌊raw / step⌋ : ℚ) * step, openType := 1, type := 1,
                   price := some (pyRound lp ps) }) := by
    simp only [prepare_payload, hraw, hstepdef]
    rw [if_neg (not_le.mpr hlp), if_neg hcs]
  refine ⟨?_, ?_, ?_⟩
  · intro p hp
    rw [hred] at hp
    by_cases hc : (⌊raw / step⌋ : ℚ) * step < step
    · rw [if_pos hc] at hp
      exact absurd hp (by simp)
    · rw [if_neg hc] at hp
      have hv : p.vol = (⌊raw / step⌋ : ℚ) * step := by
        cases hp
        rfl
      refine ⟨hv, ⟨⌊raw / step⌋, hv⟩, ?_, ?_, ?_⟩
      · rw [hv]
        calc (⌊raw / step⌋ : ℚ) * step ≤ raw / step * step := by
              apply mul_le_mul_of_nonneg_right (Int.floor_le _) (le_of_lt hstep)
          _ = raw := by field_simp
      · rw [hv]
        have h4 : raw / step < ⌊raw / step⌋ + 1 := Int.lt_floor_add_one _
        have h5 : raw < (⌊raw / step⌋ + 1) * step := by
          calc raw = raw / step * step := by field_simp
            _ < ((⌊raw / step⌋ : ℚ) + 1) * step := by
                apply mul_lt_mul_of_pos_right _ hstep
                exact_mod_cast h4
        linarith [h5]
      · rw [hv]
        exact not_lt.mp hc
  · rw [hred]
    by_cases hc : (⌊raw / step⌋ : ℚ) * step < step
    · rw [if_pos hc]
      simp [hfv.mp hc]
    · rw [if_neg hc]
      simp only [reduceCtorEq, false_iff, not_lt]
      by_contra h
      exact hc (hfv.mpr (not_le.mp h))
  · norm_num [prepare_payload, tokenA, pyRound, roundHalfEven]

theorem prepare_payload_volume_witness :
    (0 : ℚ) < 2 ∧ (1 : ℚ) ≠ 0 ∧
    (prepare_payload (some 2) 1 10 50 tokenA).map OrderPayload.vol = some 250 :=
  ⟨by norm_num, by norm_num,
    (prepare_payload_volume 50 2 1 10 0 0 "ABC_USDT" none false false
      (by norm_num) (by norm_num)).2.2⟩

/-! ## C4 — price normalization -/

/-- C4 fails as stated: the entry order price is computed with Python
`round(limit_price, price_scale)` (order_process.py:77), which rounds
`2.6` up to `3` at scale 0 — greater than the raw input, not a floor. -/
theorem price_rounding_counterexample :
    (prepare_payload (some (13/5)) 1 10 50 tokenA).map OrderPayload.price =
      some (some 3) ∧ (13/5 : ℚ) < 3 := by
  constructor
  · norm_num [prepare_payload, tokenA, pyRound, roundHalfEven]
  · norm_num

/-- C4 (amended): every submitted price has at most `priceScale` decimal
digits (it is an integer multiple of `10 ^ (-priceScale)`); the long-side
(`side = 1`) stop-loss/take-profit trigger prices are tick-floorings of
their raw inputs and never exceed them; but the entry limit price and the
short-side trigger prices use Python `round` (half to even) and may exceed
the raw input (see the counterexample). -/
theorem price_normalization :
    (∀ p s, adjust_price_to_tick_size p s ≤ p ∧
      ∃ k : ℤ, adjust_price_to_tick_size p s = (k : ℚ) / 10 ^ s) ∧
    (∀ x s, ∃ k : ℤ, pyRound x s = (k : ℚ) / 10 ^ s) ∧
    (∀ lp sd lev mm token p ps, token.priceScale = some ps →
        prepare_payload lp sd lev mm token = some p →
        ∃ k : ℤ, p.price = some ((k : ℚ) / 10 ^ ps)) ∧
    (∀ env mo symbol side lp payload token st ps, token.priceScale = some ps →
        ∀ pp, pp ∈ planCalls
          (finalize_order_and_setup_sl_tp env mo symbol side lp payload token st).2 →
          (∃ k : ℤ, pp.triggerPrice = (k : ℚ) / 10 ^ ps) ∧
          (side = 1 → ∃ raw, pp.triggerPrice = adjust_price_to_tick_size raw ps ∧
            pp.triggerPrice ≤ raw)) := by
  refine ⟨?_, ?_, ?_, ?_⟩
  · intro p s
    exact ⟨adjust_le p s, ⟨⌊p * 10 ^ s⌋, adjust_eq_floor_div p s⟩⟩
  · intro x s
    exact pyRound_den x s
  · intro lp sd lev mm token p ps hps hp
    obtain ⟨sym, tmm, tcs, tps, tvs, tml, tig, top⟩ := token
    simp only at hps
    subst hps
    cases lp with
    | none => simp [prepare_payload] at hp
    | some lp0 =>
      simp only [prepare_payload] at hp
      split at hp
      · exact absurd hp (by simp)
      · cases tvs with
        | none => simp at hp
        | some vs =>
          simp only at hp
          split at hp
          · exact absurd hp (by simp)
          · refine ⟨roundHalfEven (lp0 * 10 ^ ps), ?_⟩
            cases hp
            rfl
  · intro env mo symbol side lp payload token st ps hps pp hmem
    simp only [finalize_order_and_setup_sl_tp] at hmem
    by_cases hside : side = 1 <;>
      [simp only [hside, reduceIte] at hmem;
       simp only [if_neg hside] at hmem] <;>
      split_ifs at hmem <;>
      simp only [planCalls, List.filterMap_append, List.mem_append,
        List.filterMap_cons, List.filterMap_nil, List.mem_singleton,
        List.not_mem_nil, or_false, false_or] at hmem
    all_goals try rcases hmem with hmem | hmem
    all_goals try subst hmem
    all_goals simp only [hps, Option.getD_some, reduceIte]
    all_goals refine ⟨pyRound_den _ _, fun hs => ?_⟩
    all_goals
      first
        | exact absurd hs hside
        | exact ⟨_, rfl, adjust_le _ _⟩

theorem price_normalization_witness :
    tokenA.priceScale = some 0 ∧
    planW ∈ planCalls (finalize_order_and_setup_sl_tp envFill (some crespW)
      "ABC_USDT" 1 2 payA tokenA st5).2 ∧
    (∃ k : ℤ, planW.triggerPrice = (k : ℚ) / 10 ^ 0) ∧
    (∃ raw, planW.triggerPrice = adjust_price_to_tick_size raw 0 ∧
      planW.triggerPrice ≤ raw) := by
  have hmem : planW ∈ planCalls (finalize_order_and_setup_sl_tp envFill
      (some crespW) "ABC_USDT" 1 2 payA tokenA st5).2 := by
    simp only [finalize_order_and_setup_sl_tp, envFill, crespW, payA, tokenA,
      st5, truthyNat, truthyQ, show (("1" : String) = "") = False by simp,
      if_false, reduceIte, bne_iff_ne, ne_eq, not_false_eq_true]
    norm_num [planCalls, planW, adjust_price_to_tick_size, pyRound,
      roundHalfEven]
  have h := price_normalization.2.2.2 envFill (some crespW) "ABC_USDT" 1 2 payA
    tokenA st5 0 rfl planW hmem
  exact ⟨rfl, hmem, h.1, h.2 rfl⟩

/-! ## C10 — admission condition of the signal source -/

/-- C10: `_process_symbol_update` enqueues an order candidate exactly when
the message carries a (truthy) symbol, a best bid, a best ask and a dex
price, the mid price `(bid + ask) / 2` is nonzero, and the absolute
mid-to-dex spread percentage lies within
`[SPREAD_MIN_PERCENT, SPREAD_MAX_PERCENT]`. -/
theorem process_symbol_update_enqueues (pl : SymbolPayload) (mn mx : ℚ) :
    (process_symbol_update pl mn mx).isSome ↔
      (pl.symbol ≠ none ∧ pl.symbol ≠ some "" ∧
       pl.mexc_best_bid ≠ none ∧ pl.mexc_best_ask ≠ none ∧ pl.dex ≠ none ∧
       (pl.mexc_best_bid.getD 0 + pl.mexc_best_ask.getD 0) / 2 ≠ 0 ∧
       mn ≤ |(pl.dex.getD 0 - (pl.mexc_best_bid.getD 0 + pl.mexc_best_ask.getD 0) / 2) /
             ((pl.mexc_best_bid.getD 0 + pl.mexc_best_ask.getD 0) / 2) * 100| ∧
       |(pl.dex.getD 0 - (pl.mexc_best_bid.getD 0 + pl.mexc_best_ask.getD 0) / 2) /
             ((pl.mexc_best_bid.getD 0 + pl.mexc_best_ask.getD 0) / 2) * 100| ≤ mx) := by
  obtain ⟨os, ob, oa, od⟩ := pl
  cases os <;> cases ob <;> cases oa <;> cases od <;>
    simp only [process_symbol_update, calc_spread_pct, Option.getD_some,
      Option.isSome_none, Option.isSome_some, Option.getD_none] <;>
    simp only [ite_self, ne_eq, not_false_eq_true, not_true_eq_false,
      false_and, and_false, true_and, and_true, Option.some.injEq,
      reduceCtorEq, Bool.false_eq_true, iff_false, not_and, not_not,
      Option.isSome_none] <;>
    try tauto
  case some.some.some.some s bid ask dex =>
    by_cases hs : s = ""
    · simp [hs]
    · rw [if_neg hs]
      by_cases hz : (bid + ask) / 2 = 0
      · simp [hz, if_pos, hs]
      · rw [if_neg hz]
        simp only [hz, hs, not_false_eq_true, true_and, Option.some.injEq]
        by_cases hband : mn ≤ |(dex - (bid + ask) / 2) / ((bid + ask) / 2) * 100| ∧
            |(dex - (bid + ask) / 2) / ((bid + ask) / 2) * 100| ≤ mx
        · simp [if_pos hband, hband]
        · simp [if_neg hband, hband]

/-! ## Store-preservation lemmas for the monitor strategies -/

theorem pyramiding_eval_peak (env : MonitorEnv) (st : Settings) (token : Token)
    (pos : Position) (price pnl : ℚ) (store : Store) (pid : ℕ) :
    (pyramiding_eval env st token pos price pnl store).1 (RKey.peak_price pid) =
      store (RKey.peak_price pid) := by
  simp only [pyramiding_eval]
  split_ifs
  all_goals try rfl
  all_goals try split
  all_goals try split_ifs
  all_goals simp [Store.set, Store.incr]

theorem scaling_out_loop_peak (env : MonitorEnv) (pos : Position)
    (vol_scale : ℕ) (iv pnl : ℚ) (pid : ℕ) :
    ∀ (targets : List ScalingTarget) (i : ℕ) (store : Store),
      (scaling_out_loop env pos vol_scale iv pnl targets i store).1
        (RKey.peak_price pid) = store (RKey.peak_price pid) := by
  intro targets
  induction targets with
  | nil => intro i store; rfl
  | cons t rest ih =>
    intro i store
    simp only [scaling_out_loop]
    split
    · split
      · simp [Store.set]
      · rfl
    · exact ih (i + 1) store

theorem scaling_out_eval_peak (env : MonitorEnv) (st : Settings)
    (pos : Position) (vol_scale : ℕ) (pnl : ℚ) (store : Store) (pid : ℕ) :
    (scaling_out_eval env st pos vol_scale pnl store).1 (RKey.peak_price pid) =
      store (RKey.peak_price pid) := by
  by_cases huse : st.USE_SCALING_OUT = true
  · cases hv : store (RKey.initial_vol pos.positionId) with
    | none =>
      simp [scaling_out_eval, huse, hv, scaling_out_loop_peak, Store.set]
    | some v => simp [scaling_out_eval, huse, hv, scaling_out_loop_peak]
  · simp [scaling_out_eval, huse]

theorem stop_loss_eval_not_hit (env : MonitorEnv) (st : Settings)
    (pos : Position) (pnl : ℚ) (store : Store)
    (h : (stop_loss_eval env st pos pnl store).2.2 = false) :
    (stop_loss_eval env st pos pnl store).1 = store := by
  cases hsl : st.EXCHANGE_STOP_LOSS_PERCENT with
  | none => simp [stop_loss_eval, hsl]
  | some slp =>
    by_cases hc : slp ≠ 0 ∧ pnl ≤ -|slp|
    · by_cases hok : (close_position env pos none).1 = true
      · exfalso
        simp [stop_loss_eval, hsl, hc, hok] at h
      · simp [stop_loss_eval, hsl, hc, hok]
    · simp [stop_loss_eval, hsl, hc]

theorem stop_loss_eval_peak (env : MonitorEnv) (st : Settings)
    (pos : Position) (pnl : ℚ) (store : Store) :
    (stop_loss_eval env st pos pnl store).1 (RKey.peak_price pos.positionId) = none ∨
    (stop_loss_eval env st pos pnl store).1 (RKey.peak_price pos.positionId) =
      store (RKey.peak_price pos.positionId) := by
  simp only [stop_loss_eval]
  repeat' split
  all_goals simp [Store.set, Store.del]

theorem timeout_eval_peak (env : MonitorEnv) (st : Settings)
    (pos : Position) (now_ms : ℚ) (store : Store) :
    (timeout_eval env st pos now_ms store).1 (RKey.peak_price pos.positionId) = none ∨
    (timeout_eval env st pos now_ms store).1 (RKey.peak_price pos.positionId) =
      store (RKey.peak_price pos.positionId) := by
  simp only [timeout_eval]
  repeat' split
  all_goals simp [Store.set, Store.del]

theorem trailing_stop_eval_peak (env : MonitorEnv) (st : Settings)
    (pos : Position) (price pnl : ℚ) (store : Store) (s s2 : ℚ)
    (hs : store (RKey.peak_price pos.positionId) = some s)
    (hs2 : (trailing_stop_eval env st pos price pnl store).1
      (RKey.peak_price pos.positionId) = some s2) :
    (pos.positionType = 1 → s ≤ s2) ∧ (pos.positionType = 2 → s2 ≤ s) := by
  simp only [trailing_stop_eval] at hs2
  by_cases hact : (st.USE_TRAILING_STOP &&
      decide (st.TRAILING_ACTIVATION_PERCENT ≤ pnl)) = true
  case neg =>
    rw [if_neg hact] at hs2
    simp only [hs, Option.some.injEq] at hs2
    subst hs2
    exact ⟨fun _ => le_refl _, fun _ => le_refl _⟩
  case pos =>
    rw [if_pos hact] at hs2
    constructor
    · intro hty
      simp only [hty, hs, Option.getD_some, reduceIte] at hs2
      by_cases hlt : s < price
      · rw [if_pos hlt] at hs2
        split at hs2
        · split at hs2
          · simp [Store.del] at hs2
          · simp only [Store.set, reduceIte, Option.some.injEq] at hs2
            subst hs2
            exact le_of_lt hlt
        · simp only [Store.set, reduceIte, Option.some.injEq] at hs2
          subst hs2
          exact le_of_lt hlt
      · rw [if_neg hlt] at hs2
        split at hs2
        · split at hs2
          · simp [Store.del] at hs2
          · simp only [hs, Option.some.injEq] at hs2
            subst hs2
            exact le_refl _
        · simp only [hs, Option.some.injEq] at hs2
          subst hs2
          exact le_refl _
    · intro hty
      have hty1 : ¬pos.positionType = 1 := by rw [hty]; decide
      simp only [if_neg hty1, hs, Option.getD_some] at hs2
      by_cases hlt : price < s
      · rw [if_pos hlt] at hs2
        split at hs2
        · split at hs2
          · simp [Store.del] at hs2
          · simp only [Store.set, reduceIte, Option.some.injEq] at hs2
            subst hs2
            exact le_of_lt hlt
        · simp only [Store.set, reduceIte, Option.some.injEq] at hs2
          subst hs2
          exact le_of_lt hlt
      · rw [if_neg hlt] at hs2
        split at hs2
        · split at hs2
          · simp [Store.del] at hs2
          · simp only [hs, Option.some.injEq] at hs2
            subst hs2
            exact le_refl _
        · simp only [hs, Option.some.injEq] at hs2
          subst hs2
          exact le_refl _

/-! ## C6 — the trailing-stop peak only moves favorably -/

theorem stop_loss_eval_some (env : MonitorEnv) (st : Settings)
    (pos : Position) (pnl : ℚ) (store : Store) (x : ℚ)
    (h : (stop_loss_eval env st pos pnl store).1
      (RKey.peak_price pos.positionId) = some x) :
    store (RKey.peak_price pos.positionId) = some x := by
  rcases stop_loss_eval_peak env st pos pnl store with hnone | hkeep
  · rw [hnone] at h
    exact absurd h (by simp)
  · rw [← hkeep]
    exact h

theorem timeout_eval_some (env : MonitorEnv) (st : Settings)
    (pos : Position) (now_ms : ℚ) (store : Store) (x : ℚ)
    (h : (timeout_eval env st pos now_ms store).1
      (RKey.peak_price pos.positionId) = some x) :
    store (RKey.peak_price pos.positionId) = some x := by
  rcases timeout_eval_peak env st pos now_ms store with hnone | hkeep
  · rw [hnone] at h
    exact absurd h (by simp)
  · rw [← hkeep]
    exact h

/-- C6: for a long position the persisted peak price
(`peak_price:{positionId}`) is monotonically non-decreasing, and for a
short position non-increasing: first conjunct — across one whole monitor
cycle of the position (any strategy may run; the closes that clear the key
leave nothing to compare, so the hypothesis requires the key to survive
the cycle); second conjunct — across any sequence of monitor cycles
during which the key stays present, i.e. until the position is closed. -/
theorem trailing_peak_monotone :
    (∀ env st token pos price now store s s2,
      store (RKey.peak_price pos.positionId) = some s →
      (monitor_position_step env st token pos price now store).1
        (RKey.peak_price pos.positionId) = some s2 →
      (pos.positionType = 1 → s ≤ s2) ∧ (pos.positionType = 2 → s2 ≤ s)) ∧
    (∀ st token pos cycles store s s2,
      store (RKey.peak_price pos.positionId) = some s →
      (∀ n, ((monitor_cycles st token pos (List.take n cycles) store)
        (RKey.peak_price pos.positionId)).isSome) →
      monitor_cycles st token pos cycles store
        (RKey.peak_price pos.positionId) = some s2 →
      (pos.positionType = 1 → s ≤ s2) ∧ (pos.positionType = 2 → s2 ≤ s)) := by
  have step : ∀ env st token pos price now store s s2,
      store (RKey.peak_price pos.positionId) = some s →
      (monitor_position_step env st token pos price now store).1
        (RKey.peak_price pos.positionId) = some s2 →
      (pos.positionType = 1 → s ≤ s2) ∧ (pos.positionType = 2 → s2 ≤ s) := by
    intro env st token pos price now store s s2 hs hs2
    simp only [monitor_position_step] at hs2
    by_cases hty : pos.positionType = 1
    · refine ⟨fun _ => ?_, fun h2 => absurd (hty.symm.trans h2) (by decide)⟩
      simp only [hty, reduceIte] at hs2
      split at hs2
      · simp only [scaling_out_eval_peak, pyramiding_eval_peak, hs,
          Option.some.injEq] at hs2
        subst hs2
        exact le_refl _
      · split at hs2
        · have hkey := stop_loss_eval_some _ _ _ _ _ _ hs2
          simp only [scaling_out_eval_peak, pyramiding_eval_peak, hs,
            Option.some.injEq] at hkey
          subst hkey
          exact le_refl _
        · rename_i h3
          rw [Bool.not_eq_true] at h3
          split at hs2
          · exact (trailing_stop_eval_peak _ _ _ _ _ _ _ _
              (by rw [stop_loss_eval_not_hit _ _ _ _ _ h3,
                    scaling_out_eval_peak, pyramiding_eval_peak]
                  exact hs) hs2).1 hty
          · have h5 := timeout_eval_some _ _ _ _ _ _ hs2
            exact (trailing_stop_eval_peak _ _ _ _ _ _ _ _
              (by rw [stop_loss_eval_not_hit _ _ _ _ _ h3,
                    scaling_out_eval_peak, pyramiding_eval_peak]
                  exact hs) h5).1 hty
    · refine ⟨fun h1 => absurd h1 hty, fun hty2 => ?_⟩
      simp only [if_neg hty] at hs2
      split at hs2
      · simp only [scaling_out_eval_peak, pyramiding_eval_peak, hs,
          Option.some.injEq] at hs2
        subst hs2
        exact le_refl _
      · split at hs2
        · have hkey := stop_loss_eval_some _ _ _ _ _ _ hs2
          simp only [scaling_out_eval_peak, pyramiding_eval_peak, hs,
            Option.some.injEq] at hkey
          subst hkey
          exact le_refl _
        · rename_i h3
          rw [Bool.not_eq_true] at h3
          split at hs2
          · exact (trailing_stop_eval_peak _ _ _ _ _ _ _ _
              (by rw [stop_loss_eval_not_hit _ _ _ _ _ h3,
                    scaling_out_eval_peak, pyramiding_eval_peak]
                  exact hs) hs2).2 hty2
          · have h5 := timeout_eval_some _ _ _ _ _ _ hs2
            exact (trailing_stop_eval_peak _ _ _ _ _ _ _ _
              (by rw [stop_loss_eval_not_hit _ _ _ _ _ h3,
                    scaling_out_eval_peak, pyramiding_eval_peak]
                  exact hs) h5).2 hty2
  refine ⟨step, ?_⟩
  intro st token pos cycles
  induction cycles with
  | nil =>
    intro store s s2 hs _ hs2
    simp only [monitor_cycles] at hs2
    rw [hs] at hs2
    cases hs2
    exact ⟨fun _ => le_refl _, fun _ => le_refl _⟩
  | cons c rest ih =>
    obtain ⟨cenv, cprice, cnow⟩ := c
    intro store s s2 hs hmid hs2
    have h1 := hmid 1
    simp only [List.take, monitor_cycles] at h1
    rcases hpk : (monitor_position_step cenv st token pos cprice cnow store).1
        (RKey.peak_price pos.positionId) with _ | s1
    · rw [hpk] at h1
      simp at h1
    · have hstep := step cenv st token pos cprice cnow store s s1 hs hpk
      have hrest := ih ((monitor_position_step cenv st token pos cprice cnow
          store).1) s1 s2 hpk
        (fun n => by
          have hmn := hmid (n + 1)
          simpa [List.take, monitor_cycles] using hmn)
        (by simpa [monitor_cycles] using hs2)
      exact ⟨fun hty => le_trans (hstep.1 hty) (hrest.1 hty),
             fun hty => le_trans (hrest.2 hty) (hstep.2 hty)⟩

theorem trailing_peak_monotone_witness :
    storePeak (RKey.peak_price pos5.positionId) = some 100 ∧
    (monitor_position_step envOK stTrail tokenA pos5 105 0 storePeak).1
      (RKey.peak_price pos5.positionId) = some 105 ∧
    (100 : ℚ) ≤ 105 := by
  have h1 : storePeak (RKey.peak_price pos5.positionId) = some 100 := by
    norm_num [storePeak, pos5]
  have h2 : (monitor_position_step envOK stTrail tokenA pos5 105 0 storePeak).1
      (RKey.peak_price pos5.positionId) = some 105 := by
    norm_num [monitor_position_step, pyramiding_eval, scaling_out_eval,
      stop_loss_eval, trailing_stop_eval, timeout_eval, close_position,
      close_position_payload, Store.set, stTrail, storePeak, pos5, tokenA,
      envOK]
  exact ⟨h1, h2, (trailing_peak_monotone.1 envOK stTrail tokenA pos5 105 0
    storePeak 100 105 h1 h2).1 rfl⟩

/-! ## C9 — scaling-out idempotence -/

theorem scaling_out_loop_close_le_one (env : MonitorEnv) (pos : Position)
    (vs : ℕ) (iv pnl : ℚ) :
    ∀ (targets : List ScalingTarget) (i : ℕ) (store : Store),
      (closeCalls (scaling_out_loop env pos vs iv pnl targets i store).2.1).length ≤ 1 := by
  intro targets
  induction targets with
  | nil => intro i store; simp [scaling_out_loop, closeCalls]
  | cons t rest ih =>
    intro i store
    simp only [scaling_out_loop]
    split
    · cases hcp : close_position_payload pos
          (some (pyRound (iv * t.close_fraction) vs)) with
      | none =>
        simp [close_position, hcp, closeCalls]
      | some p =>
        simp [close_position, hcp, closeCalls]
        split <;> simp [closeCalls]
    · exact ih (i + 1) store

/-- C9: a scale-out target whose hit marker
(`scaling_target_hit:{positionId}:{i}`) is present is skipped outright by
the target loop (no close is ever issued for it again), and one Scaling
Out evaluation issues at most one close call per position per cycle. -/
theorem scaling_out_idempotent :
    (∀ env pos vol_scale iv pnl t rest i store,
      (store (RKey.scaling_target_hit pos.positionId i)).isSome →
      scaling_out_loop env pos vol_scale iv pnl (t :: rest) i store =
        scaling_out_loop env pos vol_scale iv pnl rest (i + 1) store) ∧
    (∀ env st pos vol_scale pnl store,
      (closeCalls (scaling_out_eval env st pos vol_scale pnl store).2.1).length ≤ 1) := by
  constructor
  · intro env pos vol_scale iv pnl t rest i store hmark
    rcases hv : store (RKey.scaling_target_hit pos.positionId i) with _ | v
    · rw [hv] at hmark
      simp at hmark
    · simp only [scaling_out_loop, hv, Option.isNone_some, Bool.and_false,
        Bool.false_eq_true, if_false]
  · intro env st pos vol_scale pnl store
    by_cases huse : st.USE_SCALING_OUT = true
    · cases hv : store (RKey.initial_vol pos.positionId) with
      | none =>
        simp only [scaling_out_eval, huse, hv, if_true, closeCalls,
          List.filterMap_append, List.length_append, List.filterMap_cons,
          List.filterMap_nil]
        simpa [closeCalls] using scaling_out_loop_close_le_one env pos
          vol_scale pos.holdVol pnl _ 0 _
      | some v =>
        simp only [scaling_out_eval, huse, hv, if_true, closeCalls,
          List.filterMap_append, List.length_append, List.filterMap_nil,
          List.nil_append]
        simpa [closeCalls] using scaling_out_loop_close_le_one env pos
          vol_scale v pnl _ 0 _
    · simp [scaling_out_eval, huse, closeCalls]

theorem scaling_out_idempotent_witness :
    ((store5 (RKey.scaling_target_hit pos5.positionId 0)).isSome = true) ∧
    scaling_out_loop envOK pos5 0 10 50 [⟨3, 1/2⟩] 0 store5 =
      scaling_out_loop envOK pos5 0 10 50 [] 1 store5 ∧
    (closeCalls (scaling_out_eval envOK st5 pos5 0 50 store5).2.1).length ≤ 1 := by
  have h1 : (store5 (RKey.scaling_target_hit pos5.positionId 0)).isSome = true := by
    norm_num [store5, pos5]
  exact ⟨h1,
    scaling_out_idempotent.1 envOK pos5 0 10 50 ⟨3, 1/2⟩ [] 0 store5 h1,
    scaling_out_idempotent.2 envOK st5 pos5 0 50 store5⟩

/-! ## C5 — stop-loss close -/

/-- C5 fails as stated: after a successful stop-loss close the monitor
deletes only the peak-price, initial-spread and initial-volume keys
(position_monitor.py:211-215); the scale-out hit markers and the
pyramiding counter survive in the store.  Concrete run: long position 7,
entry 100, leverage 1, current price 94 (pnl −6 %), stop loss 5 %, a hit
marker and a pyramiding counter present — after the cycle both keys are
still present while exactly one full close was issued. -/
theorem stop_loss_clear_counterexample :
    (monitor_position_step envOK st5 tokenA pos5 94 0 store5).1
      (RKey.scaling_target_hit 7 0) = some 1 ∧
    (monitor_position_step envOK st5 tokenA pos5 94 0 store5).1
      (RKey.pyramiding_entries 7) = some 2 ∧
    closeCalls (monitor_position_step envOK st5 tokenA pos5 94 0 store5).2 =
      [{ symbol := "ABC_USDT", vol := 10, side := 4, type := 6,
         positionId := 7 }] := by
  refine ⟨?_, ?_, ?_⟩ <;>
    norm_num [monitor_position_step, pyramiding_eval, scaling_out_eval,
      stop_loss_eval, trailing_stop_eval, timeout_eval, close_position,
      close_position_payload, closeCalls, Store.set, Store.del, st5,
      store5, pos5, tokenA, envOK] <;>
    decide

theorem scaling_out_loop_no_close (env : MonitorEnv) (pos : Position)
    (vs : ℕ) (iv pnl : ℚ) (targets : List ScalingTarget)
    (hq : ∀ t ∈ targets, pnl < t.pnl_percent) :
    ∀ (i : ℕ) (store : Store),
      scaling_out_loop env pos vs iv pnl targets i store = (store, [], false) := by
  induction targets with
  | nil => intro i store; rfl
  | cons t rest ih =>
    intro i store
    have ht := hq t (List.mem_cons_self t rest)
    simp only [scaling_out_loop, decide_eq_false (not_le.mpr ht),
      Bool.false_and, Bool.false_eq_true, if_false]
    exact ih (fun t2 h2 => hq t2 (List.mem_cons_of_mem t h2)) (i + 1) store

/-- C5 (amended): for a monitored position with a truthy configured stop
loss and `pnlPct ≤ −|stopLossPercent|`, when pyramiding is off, no
scale-out target threshold is reached, the position has positive held
volume and the close succeeds, the monitor issues exactly one
full-position close, sets the symbol cooldown, deletes the peak-price,
initial-spread and initial-volume keys — and leaves the scale-out hit
markers and the pyramiding counter untouched (they are not cleared). -/
theorem stop_loss_close_behavior (env : MonitorEnv) (st : Settings)
    (token : Token) (pos : Position) (price now : ℚ) (store : Store)
    (slp : ℚ)
    (hsl : st.EXCHANGE_STOP_LOSS_PERCENT = some slp) (hsl0 : slp ≠ 0)
    (hpy : st.USE_PYRAMIDING = false)
    (hsc : ∀ t ∈ st.SCALING_OUT_TARGETS,
      (if pos.positionType = 1 then
          (price - pos.openAvgPrice) / pos.openAvgPrice * 100
        else (pos.openAvgPrice - price) / pos.openAvgPrice * 100) *
        pos.leverage < t.pnl_percent)
    (hpnl : (if pos.positionType = 1 then
          (price - pos.openAvgPrice) / pos.openAvgPrice * 100
        else (pos.openAvgPrice - price) / pos.openAvgPrice * 100) *
        pos.leverage ≤ -|slp|)
    (hvol : 0 < pos.holdVol)
    (hok : env.closeOk (full_close_payload pos) = true) :
    closeCalls (monitor_position_step env st token pos price now store).2 =
      [full_close_payload pos] ∧
    (monitor_position_step env st token pos price now store).1
      (RKey.cooldown pos.symbol) = some 1 ∧
    (monitor_position_step env st token pos price now store).1
      (RKey.peak_price pos.positionId) = none ∧
    (monitor_position_step env st token pos price now store).1
      (RKey.initial_spread pos.positionId) = none ∧
    (monitor_position_step env st token pos price now store).1
      (RKey.initial_vol pos.positionId) = none ∧
    (∀ i, (monitor_position_step env st token pos price now store).1
      (RKey.scaling_target_hit pos.positionId i) =
      store (RKey.scaling_target_hit pos.positionId i)) ∧
    (monitor_position_step env st token pos price now store).1
      (RKey.pyramiding_entries pos.positionId) =
      store (RKey.pyramiding_entries pos.positionId) := by
  have hpay : close_position_payload pos none = some (full_close_payload pos) := by
    simp [close_position_payload, full_close_payload, not_le.mpr hvol, lt_irrefl]
  have hclose : close_position env pos none =
      (true, [Ev.call (ExCall.close_position_market (full_close_payload pos))]) := by
    simp [close_position, hpay, hok]
  have hsorted : ∀ t ∈ List.insertionSort
      (fun a b => a.pnl_percent ≤ b.pnl_percent) st.SCALING_OUT_TARGETS,
      (if pos.positionType = 1 then
          (price - pos.openAvgPrice) / pos.openAvgPrice * 100
        else (pos.openAvgPrice - price) / pos.openAvgPrice * 100) *
        pos.leverage < t.pnl_percent := by
    intro t ht
    exact hsc t ((List.perm_insertionSort
      (fun a b => a.pnl_percent ≤ b.pnl_percent) st.SCALING_OUT_TARGETS).mem_iff.mp ht)
  simp only [monitor_position_step, pyramiding_eval, hpy, Bool.false_eq_true,
    if_false]
  by_cases huse : st.USE_SCALING_OUT = true
  · cases hv : store (RKey.initial_vol pos.positionId) with
    | none =>
      simp only [scaling_out_eval, huse, hv, if_true,
        scaling_out_loop_no_close env pos _ _ _ _ hsorted]
      simp only [stop_loss_eval, hsl, hsl0, hpnl, ne_eq, not_false_eq_true,
        and_true, true_and, if_true, hclose, reduceIte]
      refine ⟨?_, ?_, ?_, ?_, ?_, ?_, ?_⟩ <;>
        simp [closeCalls, Store.set, Store.del]
    | some v =>
      simp only [scaling_out_eval, huse, hv, if_true,
        scaling_out_loop_no_close env pos _ _ _ _ hsorted]
      simp only [stop_loss_eval, hsl, hsl0, hpnl, ne_eq, not_false_eq_true,
        and_true, true_and, if_true, hclose, reduceIte]
      refine ⟨?_, ?_, ?_, ?_, ?_, ?_, ?_⟩ <;>
        simp [closeCalls, Store.set, Store.del]
  · simp only [scaling_out_eval, huse, Bool.false_eq_true, if_false]
    simp only [stop_loss_eval, hsl, hsl0, hpnl, ne_eq, not_false_eq_true,
      and_true, true_and, if_true, hclose, reduceIte]
    refine ⟨?_, ?_, ?_, ?_, ?_, ?_, ?_⟩ <;>
      simp [closeCalls, Store.set, Store.del]

theorem stop_loss_close_behavior_witness :
    closeCalls (monitor_position_step envOK st5 tokenA pos5 94 0 store5).2 =
      [full_close_payload pos5] ∧
    (monitor_position_step envOK st5 tokenA pos5 94 0 store5).1
      (RKey.cooldown "ABC_USDT") = some 1 ∧
    (monitor_position_step envOK st5 tokenA pos5 94 0 store5).1
      (RKey.peak_price 7) = none := by
  have h := stop_loss_close_behavior envOK st5 tokenA pos5 94 0 store5 5
    rfl (by norm_num) rfl (by simp [st5]) (by norm_num [pos5])
    (by norm_num [pos5]) rfl
  refine ⟨?_, ?_, ?_⟩
  · have h1 := h.1
    simpa [pos5] using h1
  · have h2 := h.2.1
    simpa [pos5] using h2
  · have h3 := h.2.2.1
    simpa [pos5] using h3

/-! ## C8 — candidate rejection makes no exchange call and sets no key -/

/-- C8: a dequeued candidate whose symbol is unknown, whose symbol has an
active cooldown while `USE_COOLDOWN` is set, whose token is ignored, or
whose token already has an order in process is dropped by `start_process`
without a single exchange call and without writing any redis key (in
particular no cooldown is set). -/
theorem candidate_rejection_silent :
    (∀ env tokens store st order,
      (order.mexc_symbol = "" ∨ tokens order.mexc_symbol = none) →
      (start_process_step env tokens store st order).1 =
        StepAction.dropped_unknown ∧
      (start_process_step env tokens store st order).2.2 = []) ∧
    (∀ env tokens store st order token,
      order.mexc_symbol ≠ "" →
      tokens order.mexc_symbol = some token →
      st.USE_COOLDOWN = true →
      (store (RKey.cooldown order.mexc_symbol)).isSome = true →
      (start_process_step env tokens store st order).1 =
        StepAction.dropped_cooldown ∧
      ∀ e ∈ (start_process_step env tokens store st order).2.2,
        (∀ c, e ≠ Ev.call c) ∧ (∀ k v ttl, e ≠ Ev.redisSet k v ttl)) ∧
    (∀ env tokens store st order token,
      order.mexc_symbol ≠ "" →
      tokens order.mexc_symbol = some token →
      (st.USE_COOLDOWN && (store (RKey.cooldown order.mexc_symbol)).isSome) = false →
      token.is_ignored = true →
      (start_process_step env tokens store st order).1 =
        StepAction.dropped_ignored ∧
      ∀ e ∈ (start_process_step env tokens store st order).2.2,
        (∀ c, e ≠ Ev.call c) ∧ (∀ k v ttl, e ≠ Ev.redisSet k v ttl)) ∧
    (∀ env tokens store st order token,
      order.mexc_symbol ≠ "" →
      tokens order.mexc_symbol = some token →
      (st.USE_COOLDOWN && (store (RKey.cooldown order.mexc_symbol)).isSome) = false →
      token.is_ignored = false →
      token.order_in_process = true →
      (start_process_step env tokens store st order).1 =
        StepAction.dropped_in_process ∧
      ∀ e ∈ (start_process_step env tokens store st order).2.2,
        (∀ c, e ≠ Ev.call c) ∧ (∀ k v ttl, e ≠ Ev.redisSet k v ttl)) := by
  refine ⟨?_, ?_, ?_, ?_⟩
  · intro env tokens store st order hun
    rcases hun with hs | ht
    · simp [start_process_step, hs]
    · by_cases hs : order.mexc_symbol = ""
      · simp [start_process_step, hs]
      · simp [start_process_step, hs, ht]
  · intro env tokens store st order token hs ht hu hcd
    have hstep : start_process_step env tokens store st order =
        (StepAction.dropped_cooldown,
          Function.update tokens order.mexc_symbol
            (some { token with order_in_process := false }),
          [Ev.setFlag false]) := by
      simp only [start_process_step, if_neg hs, ht, hu, hcd, Bool.and_self,
        if_true, reduceIte]
    rw [hstep]
    exact ⟨rfl, by intro e he; simp at he; subst he; simp⟩
  · intro env tokens store st order token hs ht hcd hig
    have hstep : start_process_step env tokens store st order =
        (StepAction.dropped_ignored,
          Function.update tokens order.mexc_symbol
            (some { token with order_in_process := false }),
          [Ev.setFlag false]) := by
      simp only [start_process_step, if_neg hs, ht, hcd, hig,
        Bool.false_eq_true, if_false, if_true, reduceIte]
    rw [hstep]
    exact ⟨rfl, by intro e he; simp at he; subst he; simp⟩
  · intro env tokens store st order token hs ht hcd hig hip
    have hstep : start_process_step env tokens store st order =
        (StepAction.dropped_in_process,
          Function.update tokens order.mexc_symbol
            (some { token with order_in_process := false }),
          [Ev.setFlag false]) := by
      simp only [start_process_step, if_neg hs, ht, hcd, hig, hip,
        Bool.false_eq_true, if_false, if_true, reduceIte]
    rw [hstep]
    exact ⟨rfl, by intro e he; simp at he; subst he; simp⟩

theorem candidate_rejection_silent_witness :
    orderA.mexc_symbol ≠ "" ∧ tokensB "ABC_USDT" = some tokenB ∧
    st5.USE_COOLDOWN = true ∧
    (storeCD (RKey.cooldown "ABC_USDT")).isSome = true ∧
    (start_process_step envNone tokensB storeCD st5 orderA).1 =
      StepAction.dropped_cooldown ∧
    (∀ e ∈ (start_process_step envNone tokensB storeCD st5 orderA).2.2,
      (∀ c, e ≠ Ev.call c) ∧ (∀ k v ttl, e ≠ Ev.redisSet k v ttl)) := by
  have h := candidate_rejection_silent.2.1 envNone tokensB storeCD st5 orderA
    tokenB (by simp [orderA]) (by simp [tokensB, orderA]) rfl
    (by simp [storeCD, orderA])
  refine ⟨by simp [orderA], rfl, rfl, by simp [storeCD], ?_, ?_⟩
  · have h1 := h.1
    simpa [orderA] using h1
  · have h2 := h.2
    simpa [orderA] using h2

/-! ## C1 — the in-process flag lifecycle -/

theorem finalize_no_flag (env : OrderEnv) (mo : Option CreateResp)
    (symbol : String) (side : ℕ) (lp : ℚ) (payload : OrderPayload)
    (token : Token) (st : Settings) (e : Ev)
    (hmem : e ∈ (finalize_order_and_setup_sl_tp env mo symbol side lp payload
      token st).2) : ∀ b, e ≠ Ev.setFlag b := by
  intro b
  simp only [finalize_order_and_setup_sl_tp] at hmem
  split_ifs at hmem <;>
    simp only [List.mem_append, List.mem_cons, List.mem_singleton,
      List.not_mem_nil, or_false, false_or] at hmem <;>
    (try rcases hmem with hmem | hmem) <;>
    (try subst hmem) <;>
    simp

theorem handle_order_try_no_flag (env : OrderEnv) (token : Token)
    (order : Order) (st : Settings) (e : Ev)
    (hmem : e ∈ (handle_order_try env token order st).2) :
    ∀ b, e ≠ Ev.setFlag b := by
  intro b
  simp only [handle_order_try] at hmem
  split at hmem
  · exact absurd hmem (List.not_mem_nil e)
  · split at hmem
    · rw [List.mem_append] at hmem
      rcases hmem with hmem | hmem
      · rcases List.mem_map.mp hmem with ⟨c, _, hc⟩
        rw [← hc]
        simp
      · simp only [List.mem_singleton] at hmem
        subst hmem
        simp
    · split at hmem
      · rcases List.mem_map.mp hmem with ⟨c, _, hc⟩
        rw [← hc]
        simp
      · simp only [List.append_assoc, List.mem_append] at hmem
        rcases hmem with hmem | hmem | hmem | hmem
        · rcases List.mem_map.mp hmem with ⟨c, _, hc⟩
          rw [← hc]
          simp
        · simp only [List.mem_singleton] at hmem
          subst hmem
          simp
        · exact finalize_no_flag _ _ _ _ _ _ _ _ e hmem b
        · rcases hmem with hmem | hmem <;>
            (repeat' split at hmem) <;>
            (try simp only [List.mem_singleton, List.not_mem_nil] at hmem) <;>
            (try subst hmem) <;>
            simp

/-- C1 (amended): `handle_order` sets the in-process flag `True` as its
first action, performs the whole order lifecycle without further flag
writes, and resets the flag `False` as its final action on every exit path
(the returned token always has the flag cleared).  However, a candidate
skipped by `start_process` because an order is already in process does NOT
leave the in-flight order's flag unchanged: the loop's unconditional
`finally` cleanup resets the resolved token's flag to `False`. -/
theorem order_in_process_flag :
    (∀ env token order st,
      (handle_order env token order st).2.2 =
        Ev.setFlag true :: (handle_order_try env token order st).2 ++
          [Ev.setFlag false]) ∧
    (∀ env token order st e,
      e ∈ (handle_order_try env token order st).2 → ∀ b, e ≠ Ev.setFlag b) ∧
    (∀ env token order st,
      (handle_order env token order st).1.order_in_process = false) ∧
    (∀ env tokens store st order token,
      order.mexc_symbol ≠ "" →
      tokens order.mexc_symbol = some token →
      (st.USE_COOLDOWN && (store (RKey.cooldown order.mexc_symbol)).isSome) = false →
      token.is_ignored = false →
      token.order_in_process = true →
      (start_process_step env tokens store st order).2.1 order.mexc_symbol =
        some { token with order_in_process := false }) := by
  refine ⟨fun env token order st => rfl, handle_order_try_no_flag,
    fun env token order st => rfl, ?_⟩
  intro env tokens store st order token hs ht hcd hig hip
  have hstep : start_process_step env tokens store st order =
      (StepAction.dropped_in_process,
        Function.update tokens order.mexc_symbol
          (some { token with order_in_process := false }),
        [Ev.setFlag false]) := by
    simp only [start_process_step, if_neg hs, ht, hcd, hig, hip,
      Bool.false_eq_true, if_false, if_true, reduceIte]
  rw [hstep]
  exact Function.update_same _ _ _

theorem order_in_process_flag_witness :
    orderA.mexc_symbol ≠ "" ∧ tokensB "ABC_USDT" = some tokenB ∧
    tokenB.order_in_process = true ∧
    (start_process_step envNone tokensB store0 st5 orderA).2.1 "ABC_USDT" =
      some { tokenB with order_in_process := false } := by
  have h := order_in_process_flag.2.2.2 envNone tokensB store0 st5 orderA
    tokenB (by simp [orderA]) (by simp [tokensB, orderA])
    (by simp [store0]) rfl rfl
  exact ⟨by simp [orderA], rfl, rfl, by simpa [orderA] using h⟩

/-- C1 fails as stated on the skip path: with `tokenB` (an order already
in process) and an otherwise admissible candidate, `start_process` drops
the candidate — but its `finally` clause resets the in-flight flag from
`true` to `false` instead of leaving it unchanged. -/
theorem in_process_skip_counterexample :
    tokenB.order_in_process = true ∧
    (start_process_step envNone tokensB store0 st5 orderA).1 =
      StepAction.dropped_in_process ∧
    ((start_process_step envNone tokensB store0 st5 orderA).2.1
      "ABC_USDT").map Token.order_in_process = some false := by
  refine ⟨rfl, ?_, ?_⟩ <;>
    norm_num [start_process_step, tokensB, store0, st5, orderA, tokenB,
      tokenA, Function.update_same,
      show ("ABC_USDT" = "") = False by simp]

/-! ## C7 — double-600 hedge failure falls back to one one-way call -/

/-- C7: when both hedge-side leverage calls fail with code 600, the
protocol makes exactly one one-way `change_leverage` call (its calls are
exactly long, short, one-way); if that call also fails, `handle_order`
aborts the attempt: no order is created and the symbol cooldown is set. -/
theorem hedge_600_oneway_fallback :
    (∀ dl1 dl2 rest,
      (set_leverage_hedge (some (resp600 dl1) :: some (resp600 dl2) :: rest)).2 =
        [ExCall.change_leverage (some 1), ExCall.change_leverage (some 2),
         ExCall.change_leverage none] ∧
      ((set_leverage_hedge (some (resp600 dl1) :: some (resp600 dl2) ::
          rest)).2.count (ExCall.change_leverage none)) = 1 ∧
      (okR (takeResp rest).1 = false →
        (set_leverage_hedge (some (resp600 dl1) :: some (resp600 dl2) ::
          rest)).1 = LevOutcome.abort)) ∧
    (∀ env token order st a m dl1 dl2 ow,
      st.MEXC_AUTH_TOKEN = some a → a ≠ "" →
      st.max_margin = some m → m ≠ 0 → st.leverage ≠ 0 →
      st.IS_HEDGE_MODE = true →
      env.lev_resps = [some (resp600 dl1), some (resp600 dl2), ow] →
      okR ow = false →
      handle_order_try env token order st =
        (none, [Ev.call (ExCall.change_leverage (some 1)),
                Ev.call (ExCall.change_leverage (some 2)),
                Ev.call (ExCall.change_leverage none),
                Ev.redisSet (RKey.cooldown token.mexc_symbol) 1 (some 60)])) := by
  constructor
  · intro dl1 dl2 rest
    refine ⟨?_, ?_, ?_⟩
    · simp only [set_leverage_hedge, takeResp, okR, is_2019, is_600, resp600]
      norm_num
      split <;> rfl
    · simp only [set_leverage_hedge, takeResp, okR, is_2019, is_600, resp600]
      norm_num
      split <;> rfl
    · intro how
      cases rest with
      | nil =>
        simp [set_leverage_hedge, takeResp, okR, is_2019, is_600, resp600]
      | cons r rtail =>
        simp only [takeResp] at how
        cases r with
        | none =>
          simp [set_leverage_hedge, takeResp, okR, is_2019, is_600, resp600]
        | some lr =>
          simp only [okR] at how
          simp [set_leverage_hedge, takeResp, okR, is_2019, is_600, resp600,
            how]
  · intro env token order st a m dl1 dl2 ow ha ha2 hm hm2 hl hh hr how
    have hmiss : ((match st.MEXC_AUTH_TOKEN with
        | none => true | some a => a == "") ||
        (match st.max_margin with | none => true | some m => m == 0) ||
        (st.leverage == 0)) = false := by
      rw [ha, hm]
      simp [ha2, hm2, hl]
    simp only [handle_order_try, hmiss, Bool.false_eq_true, if_false, hh,
      if_true, hr, reduceIte]
    cases ow with
    | none =>
      simp [set_leverage_hedge, takeResp, okR, is_2019, is_600, resp600]
    | some lr =>
      simp only [okR] at how
      simp [set_leverage_hedge, takeResp, okR, is_2019, is_600, resp600, how]

theorem hedge_600_oneway_fallback_witness :
    st5.MEXC_AUTH_TOKEN = some "auth" ∧ st5.IS_HEDGE_MODE = true ∧
    env600.lev_resps = [some (resp600 none), some (resp600 none),
      some (resp600 none)] ∧
    handle_order_try env600 tokenA orderA st5 =
      (none, [Ev.call (ExCall.change_leverage (some 1)),
              Ev.call (ExCall.change_leverage (some 2)),
              Ev.call (ExCall.change_leverage none),
              Ev.redisSet (RKey.cooldown "ABC_USDT") 1 (some 60)]) := by
  have h := hedge_600_oneway_fallback.2 env600 tokenA orderA st5 "auth" 50
    none none (some (resp600 none)) rfl (by simp) rfl (by norm_num)
    (by norm_num [st5]) rfl (by rfl) (by rfl)
  exact ⟨rfl, rfl, rfl, by simpa [tokenA] using h⟩

/-! ## C2 — the admission controller never over-admits in any window -/

theorem evictOld_sublist : ∀ (w : List ℚ) (now : ℚ),
    List.Sublist (evictOld w now) w := by
  intro w now
  induction w with
  | nil => exact List.Sublist.refl _
  | cons x rest ih =>
    simp only [evictOld]
    split
    · exact ih.trans (List.sublist_cons_self x rest)
    · exact List.Sublist.refl _

theorem evictOld_countP_eq (t : ℚ) :
    ∀ (w : List ℚ) (now : ℚ), now ≤ t →
      (evictOld w now).countP (fun s => inWindow t s) =
        w.countP (fun s => inWindow t s) := by
  intro w
  induction w with
  | nil => intro now h; rfl
  | cons x rest ih =>
    intro now h
    simp only [evictOld]
    split
    · rename_i hx
      rw [ih now h, List.countP_cons]
      have hwin : inWindow t x = false := by
        simp only [inWindow, Bool.and_eq_false_iff]
        left
        simp only [decide_eq_false_iff_not, not_lt]
        linarith
      rw [hwin]
      simp
    · rfl

theorem runLimiter_adms_mem (N : ℕ) :
    ∀ (atts w : List ℚ) (s : ℚ), s ∈ (runLimiter N w atts).2 → s ∈ atts := by
  intro atts
  induction atts with
  | nil => intro w s hs; exact absurd hs (List.not_mem_nil s)
  | cons a rest ih =>
    intro w s hs
    simp only [runLimiter] at hs
    rw [List.mem_append] at hs
    rcases hs with hs | hs
    · split at hs
      · simp only [List.mem_singleton] at hs
        rw [hs]
        exact List.mem_cons_self _ _
      · exact absurd hs (List.not_mem_nil s)
    · exact List.mem_cons_of_mem a (ih _ s hs)

theorem runLimiter_invariant (N : ℕ) (t : ℚ) :
    ∀ (atts w : List ℚ),
      atts.Sorted (· ≤ ·) →
      (∀ x ∈ w, ∀ a ∈ atts, x ≤ a) →
      w.length ≤ N →
      ((runLimiter N w atts).2.countP (fun s => inWindow t s)) +
        (w.countP (fun s => inWindow t s)) ≤ N := by
  intro atts
  induction atts with
  | nil =>
    intro w _ _ hlen
    simp only [runLimiter, List.countP_nil, zero_add]
    exact le_trans (List.countP_le_length _) hlen
  | cons a rest ih =>
    intro w hsort hub hlen
    have hsort2 : rest.Sorted (· ≤ ·) := (List.sorted_cons.mp hsort).2
    have harest : ∀ s ∈ rest, a ≤ s := (List.sorted_cons.mp hsort).1
    have hsub := evictOld_sublist w a
    have hlen2 : (evictOld w a).length ≤ w.length := hsub.length_le
    by_cases hadm : (evictOld w a).length < N
    · -- admitted
      have hrun : (runLimiter N w (a :: rest)).2 =
          [a] ++ (runLimiter N (evictOld w a ++ [a]) rest).2 := by
        simp [runLimiter, acquireStep, if_pos hadm]
      rw [hrun, List.countP_append]
      have hsingle : List.countP (fun s => inWindow t s) [a] =
          if inWindow t a then 1 else 0 := by
        simp [List.countP_cons]
      have hIH := ih (evictOld w a ++ [a])
        hsort2
        (by
          intro x hx s hs
          rw [List.mem_append] at hx
          rcases hx with hx | hx
          · exact hub x (hsub.subset hx) s (List.mem_cons_of_mem a hs)
          · simp only [List.mem_singleton] at hx
            rw [hx]
            exact harest s hs)
        (by
          rw [List.length_append, List.length_singleton]
          omega)
      by_cases hat : a ≤ t
      · have hcnt := evictOld_countP_eq t w a hat
        rw [List.countP_append, hsingle, hcnt] at hIH
        rw [hsingle]
        by_cases hw : inWindow t a = true <;> simp only [hw, if_true,
          if_false, Bool.false_eq_true] at hIH ⊢ <;> omega
      · push_neg at hat
        have hrest0 : ((runLimiter N (evictOld w a ++ [a]) rest).2.countP
            (fun s => inWindow t s)) = 0 := by
          rw [List.countP_eq_zero]
          intro s hs
          have hmem := runLimiter_adms_mem N rest _ s hs
          have has := harest s hmem
          simp only [inWindow, Bool.and_eq_true, decide_eq_true_eq, not_and]
          intro _
          simp only [decide_eq_true_eq, not_le]
          linarith
        have hwa : inWindow t a = false := by
          simp only [inWindow, Bool.and_eq_false_iff]
          right
          simp only [decide_eq_false_iff_not, not_le]
          exact hat
        rw [hrest0, hsingle, hwa]
        simp only [if_false, Bool.false_eq_true, zero_add]
        exact le_trans (List.countP_le_length _) hlen
    · -- refused
      have hrun : (runLimiter N w (a :: rest)).2 =
          (runLimiter N (evictOld w a) rest).2 := by
        simp [runLimiter, acquireStep, if_neg hadm]
      rw [hrun]
      by_cases hat : a ≤ t
      · have hcnt := evictOld_countP_eq t w a hat
        have hIH := ih (evictOld w a)
          hsort2
          (fun x hx s hs => hub x (hsub.subset hx) s (List.mem_cons_of_mem a hs))
          (le_trans hlen2 hlen)
        rw [hcnt] at hIH
        exact hIH
      · push_neg at hat
        have hrest0 : ((runLimiter N (evictOld w a) rest).2.countP
            (fun s => inWindow t s)) = 0 := by
          rw [List.countP_eq_zero]
          intro s hs
          have hmem := runLimiter_adms_mem N rest _ s hs
          have has := harest s hmem
          simp only [inWindow, Bool.and_eq_true, decide_eq_true_eq, not_and]
          intro _
          simp only [decide_eq_true_eq, not_le]
          linarith
        rw [hrest0, zero_add]
        exact le_trans (List.countP_le_length _) hlen

/-- C2: for every execution of `APIRateLimiter.acquire` with capacity `N`
— modelled as any time-ordered sequence of loop-body evaluations under the
lock, with a monotonic clock — the number of admissions granted inside any
rolling one-second window `(t − 1, t]` never exceeds `N`, however many
attempts arrive and at whatever rate. -/
theorem rate_limiter_window_bound (N : ℕ) (atts : List ℚ) (t : ℚ)
    (hsort : atts.Sorted (· ≤ ·)) :
    ((runLimiter N [] atts).2.countP (fun s => inWindow t s)) ≤ N := by
  have h := runLimiter_invariant N t atts []
    hsort (by intro x hx; exact absurd hx (List.not_mem_nil x)) (by simp)
  simpa using h

theorem rate_limiter_window_bound_witness :
    ([(0 : ℚ), 0, 0, 2].Sorted (· ≤ ·)) ∧
    (((runLimiter 2 [] [(0 : ℚ), 0, 0, 2]).2.countP
      (fun s => inWindow 0 s)) ≤ 2) := by
  have hsort : ([(0 : ℚ), 0, 0, 2].Sorted (· ≤ ·)) := by
    norm_num [List.sorted_cons]
  exact ⟨hsort, rate_limiter_window_bound 2 [(0 : ℚ), 0, 0, 2] 0 hsort⟩

end PitBull
